import Mathlib

/-!
# CMMS — verification of the sync / search / color / registration core

Shallow embedding of the Comedy Material Management System backend
(TypeScript + PostgreSQL) and proofs about it.

Conventions used throughout:
* database ids (uuids) are modelled as `Nat`; hex colors and external file
  ids as `String`;
* `NOW()` timestamps are modelled as explicit `Nat` parameters threaded
  into each operation;
* calls to external collaborators (Google Docs / Drive fetches, sub-service
  calls) are modelled as explicit input values or oracles of type
  `Except AppErr _`, mirroring the resolved/rejected promise;
* a thrown `AppError(message, statusCode)` is `Except.error ⟨message, code⟩`;
* each SQL statement is translated into a pure transformation of an
  explicit database state.  Single INSERT/UPDATE statements are atomic;
  statements run through `db.query`/`db.pool` outside a `BEGIN`/`COMMIT`
  block commit individually (PostgreSQL autocommit), which the embedding
  reflects by updating the state after each such statement.
-/

/-- A thrown `AppError` (message + HTTP status code). -/
structure AppErr where
  message : String
  statusCode : Nat
  deriving Repr, DecidableEq

/-! ## Search / Facet engine (src/unnamed/part_001, `searchSegments`)

The WHERE predicates assembled by `getBaseConditions` and
`generateFacetWhere` are embedded as boolean predicates over one segment
row.  The full-text condition `text_content_tsvector @@
websearch_to_tsquery(...)` is kept abstract as a per-segment oracle
`textMatch`, guarded by `hasQuery` which models
`query && query.trim() !== ''` (equivalently `tsQueryParamIndex > 0`,
the guard both builders test). -/

/-- The view of a segment row the search WHERE clauses read, together with
its `segment_tags` junction rows (`tags` is the list of tag ids attached
to the segment; the junction table's primary key makes it duplicate-free,
and the SQL uses `COUNT(DISTINCT ..)` anyway, modelled via `dedup`). -/
structure SSeg where
  id : Nat
  user_id : Nat
  category_id : Nat
  document_id : Nat
  is_primary : Bool
  created_at : Nat
  tags : List Nat
  deriving Repr, DecidableEq

/-- `filters.date_range` (both bounds optional, ISO timestamps as `Nat`). -/
structure DateRange where
  start : Option Nat
  stop : Option Nat
  deriving Repr, DecidableEq

inductive TagLogic where
  | AND
  | OR
  deriving Repr, DecidableEq

/-- The `filters` object of a search request.  An absent array and an
empty array behave identically in the source (`?.length` guard), so both
are the empty list here. -/
structure SearchFilters where
  category_ids : List Nat
  tag_ids : List Nat
  tag_logic : Option TagLogic
  document_ids : List Nat
  date_range : Option DateRange
  is_primary : Option Bool
  deriving Repr, DecidableEq

/-- The tag sub-conditions of `getBaseConditions` (part_001 lines
104-121).  `OR`: `EXISTS (SELECT 1 FROM segment_tags st WHERE
st.segment_id = s.id AND st.tag_id = ANY(T))`.  `AND`:
`(SELECT COUNT(DISTINCT st.tag_id) FROM segment_tags st WHERE
st.segment_id = s.id AND st.tag_id = ANY(T)) = T.length`. -/
def tagCondition (logic : TagLogic) (tagIds : List Nat) (segTags : List Nat) : Bool :=
  match logic with
  | .OR => segTags.any (fun t => t ∈ tagIds)
  | .AND => ((segTags.filter (fun t => t ∈ tagIds)).dedup.length == tagIds.length)

/-- Which facet dimension `getBaseConditions` is asked to exclude. -/
inductive FacetEx where
  | none
  | category
  | tags
  deriving Repr, DecidableEq

/-- `getBaseConditions(excludeFacet)` (part_001 lines 70-124) as a
predicate over one segment row: the conjunction of the clauses it pushes,
in source order.  `filters.tag_logic || 'AND'` is `tag_logic.getD .AND`. -/
def getBaseConditions (excludeFacet : FacetEx) (userId : Nat) (hasQuery : Bool)
    (textMatch : SSeg → Bool) (f : SearchFilters) (s : SSeg) : Bool :=
  (s.user_id == userId) &&
  (!hasQuery || textMatch s) &&
  (if f.category_ids.length > 0 && excludeFacet != .category then
     decide (s.category_id ∈ f.category_ids) else true) &&
  (if f.document_ids.length > 0 then decide (s.document_id ∈ f.document_ids) else true) &&
  (match f.is_primary with
   | some b => s.is_primary == b
   | none => true) &&
  (match f.date_range with
   | some dr =>
     (match dr.start with
      | some t => decide (t ≤ s.created_at)
      | none => true) &&
     (match dr.stop with
      | some t => decide (s.created_at ≤ t)
      | none => true)
   | none => true) &&
  (if f.tag_ids.length > 0 && excludeFacet != .tags then
     tagCondition (f.tag_logic.getD .AND) f.tag_ids s.tags
   else true)

/-- Which facet `generateFacetWhere` is computed for. -/
inductive FacetDim where
  | category
  | tags
  deriving Repr, DecidableEq

def FacetDim.toEx : FacetDim → FacetEx
  | .category => .category
  | .tags => .tags

/-- `generateFacetWhere(exclude)` (part_001 lines 189-226) as a predicate
over one segment row, clause for clause: owner scope, text query, document
filter, `is_primary` filter — the date range is *not* rebuilt ("Date range
(omitted for brevity in facet logic)") — then the category filter unless
excluded, and the tag filter unless excluded, the latter always as the
simplified `EXISTS`/OR form ("Simplified tag check for facets"). -/
def generateFacetWhere (exclude : FacetDim) (userId : Nat) (hasQuery : Bool)
    (textMatch : SSeg → Bool) (f : SearchFilters) (s : SSeg) : Bool :=
  (s.user_id == userId) &&
  (!hasQuery || textMatch s) &&
  (if f.document_ids.length > 0 then decide (s.document_id ∈ f.document_ids) else true) &&
  (match f.is_primary with
   | some b => s.is_primary == b
   | none => true) &&
  (if exclude != .category && f.category_ids.length > 0 then
     decide (s.category_id ∈ f.category_ids) else true) &&
  (if exclude != .tags && f.tag_ids.length > 0 then
     s.tags.any (fun t => t ∈ f.tag_ids)
   else true)

/-! ### C1: facet predicates vs. the main predicate -/

/-- **C1 (counterexample).**  The claim says the facet WHERE predicate
equals the main predicate with only the facet's own dimension removed.
At this concrete input an active date-range filter (`created_at >= 5`)
rejects the segment (`created_at = 0`) under the category-excluded main
predicate, but `generateFacetWhere` accepts it: the date-range dimension
is dropped from the facet predicate. -/
theorem generateFacetWhere_ne_baseConditions :
    generateFacetWhere .category 1 false (fun _ => false)
      ⟨[], [], none, [], some ⟨some 5, none⟩, none⟩ ⟨1, 1, 1, 1, true, 0, []⟩ ≠
    getBaseConditions FacetEx.category 1 false (fun _ => false)
      ⟨[], [], none, [], some ⟨some 5, none⟩, none⟩ ⟨1, 1, 1, 1, true, 0, []⟩ := by
  decide

/-- **C1 (amended).**  The facet predicates keep the owner scope, text
query, document-id filter and `is_primary` filter, and exclude the
facet's own dimension; but they drop the date-range filter entirely and
weaken the tag filter to OR logic regardless of the requested
`tag_logic`.  Formally: `generateFacetWhere exclude` matches exactly the
rows matched by `getBaseConditions` with the same exclusion after
clearing `date_range` and forcing `tag_logic := OR`. -/
theorem generateFacetWhere_eq_baseConditions_amended
    (exclude : FacetDim) (userId : Nat) (hasQuery : Bool) (textMatch : SSeg → Bool)
    (f : SearchFilters) (s : SSeg) :
    (generateFacetWhere exclude userId hasQuery textMatch f s = true ↔
      getBaseConditions exclude.toEx userId hasQuery textMatch
        { f with date_range := none, tag_logic := some .OR } s = true) := by
  cases exclude <;>
    simp [generateFacetWhere, getBaseConditions, FacetDim.toEx, tagCondition] <;>
    tauto

/-! ### C8: tag filter semantics (`getBaseConditions`, part_001 lines 104-121) -/

/-- **C8.**  In `getBaseConditions`, a segment matches a (duplicate-free)
tag filter `T` under OR logic iff it carries at least one tag of `T`,
and under AND logic iff it carries every tag of `T` (the SQL compares
the count of distinct carried tags from `T` with `T`'s size); in
particular a segment tagged `{0,1,2}` matches an AND filter `{0,1}`
while a segment tagged only `{0}` does not. -/
theorem tagCondition_or_and_semantics (S T : List Nat) (hnd : T.Nodup) :
    ((tagCondition .OR T S = true ↔ ∃ t ∈ T, t ∈ S) ∧
     (tagCondition .AND T S = true ↔ ∀ t ∈ T, t ∈ S)) ∧
    (tagCondition .AND [0, 1] [0, 1, 2] = true ∧ tagCondition .AND [0, 1] [0] = false) := by
  refine ⟨⟨?_, ?_⟩, by decide, by decide⟩
  · simp only [tagCondition, List.any_eq_true, decide_eq_true_eq]
    constructor
    · rintro ⟨t, ht, htT⟩; exact ⟨t, htT, ht⟩
    · rintro ⟨t, htT, ht⟩; exact ⟨t, ht, htT⟩
  · simp only [tagCondition, beq_iff_eq]
    have hmem : ∀ x, x ∈ (S.filter (fun t => t ∈ T)).dedup ↔ x ∈ S ∧ x ∈ T := by
      intro x
      simp [List.mem_dedup, List.mem_filter]
    have hsub : (S.filter (fun t => t ∈ T)).dedup ⊆ T := by
      intro x hx; exact ((hmem x).mp hx).2
    have hndD : (S.filter (fun t => t ∈ T)).dedup.Nodup := List.nodup_dedup _
    constructor
    · intro hlen t htT
      have hperm : List.Perm ((S.filter (fun t => t ∈ T)).dedup) T := by
        refine (List.subperm_of_subset hndD hsub).perm_of_length_le ?_
        omega
      exact ((hmem t).mp (hperm.mem_iff.mpr htT)).1
    · intro hall
      have hsub2 : T ⊆ (S.filter (fun t => t ∈ T)).dedup := by
        intro t ht; exact (hmem t).mpr ⟨hall t ht, ht⟩
      have h1 := (List.subperm_of_subset hndD hsub).length_le
      have h2 := (List.subperm_of_subset hnd hsub2).length_le
      omega

/-- Witness for `tagCondition_or_and_semantics` at `S = [3, 5]`,
`T = [5]`. -/
theorem tagCondition_or_and_semantics_witness :
    ([5] : List Nat).Nodup ∧
    (((tagCondition .OR [5] [3, 5] = true ↔ ∃ t ∈ [5], t ∈ [3, 5]) ∧
      (tagCondition .AND [5] [3, 5] = true ↔ ∀ t ∈ [5], t ∈ [3, 5])) ∧
     (tagCondition .AND [0, 1] [0, 1, 2] = true ∧ tagCondition .AND [0, 1] [0] = false)) :=
  ⟨by decide, tagCondition_or_and_semantics [3, 5] [5] (by decide)⟩

/-! ## Color assignment (src/backend/src/services/color.ts)

`assignColor` reads the user's palette, the set of colors already used by
segments of the target document, and the per-color global usage stats
(`color_usage` rows, as a partial map).  Both strategies in the source
sort an array with a strict ascending numeric comparator and take element
`[0]`; `Array.prototype.sort` is stable, so that selects the first
element attaining the minimal key, which `argminList` computes
directly. -/

/-- One `color_usage` row: `last_used_at` and `usage_count`. -/
structure ColorStats where
  lastUsed : Nat
  count : Nat
  deriving Repr, DecidableEq

/-- First element of the list attaining the minimal key — the value of
`arr.sort((a, b) => key(a) - key(b))[0]` for a stable sort.  `none` on
the empty list (JS `undefined`). -/
def argminList (key : α → Nat) : List α → Option α
  | [] => none
  | x :: xs => some (xs.foldl (fun best y => if key y < key best then y else best) x)

/-- `statsA ? statsA.lastUsed.getTime() : 0` — never-used colors are
treated as maximally stale. -/
def lastUsedKey (usage : String → Option ColorStats) (c : String) : Nat :=
  match usage c with
  | some st => st.lastUsed
  | none => 0

/-- `usageMap.get(a)?.count || 0`. -/
def countKey (usage : String → Option ColorStats) (c : String) : Nat :=
  match usage c with
  | some st => st.count
  | none => 0

/-- `assignColor` (color.ts lines 8-65): colors used in the document are
removed from the palette; if any remain, pick the least-recently-used
globally, otherwise fall back to the palette color with the lowest global
usage count.  Loading palette and statistics from the database is
represented by the explicit arguments. -/
def assignColor (palette : List String) (usedInDoc : Finset String)
    (usage : String → Option ColorStats) : Option String :=
  let available := palette.filter (fun c => c ∉ usedInDoc)
  match available with
  | [] => argminList (countKey usage) palette
  | a :: rest => argminList (lastUsedKey usage) (a :: rest)

/-- `recordColorUsage` (color.ts lines 67-77): upsert — insert
`(now, 1)` or increment the count and refresh the timestamp. -/
def recordColorUsage (usage : String → Option ColorStats) (color : String)
    (now : Nat) : String → Option ColorStats :=
  fun c =>
    if c = color then
      match usage color with
      | some st => some ⟨now, st.count + 1⟩
      | none => some ⟨now, 1⟩
    else usage c

/-- The per-user color state `assignColor` queries: the distinct colors
of the document's segments and the `color_usage` map. -/
structure ColorState where
  usedInDoc : Finset String
  usage : String → Option ColorStats

/-- One segment creation with auto-assigned color: assign, create the
segment (its color joins the document's used set), record usage — the
source's required call sequence (`createSegment`, part_002 lines
408-431). -/
def colorStep (palette : List String) (st : ColorState) (now : Nat) :
    Option (String × ColorState) :=
  match assignColor palette st.usedInDoc st.usage with
  | none => none
  | some c => some (c, ⟨insert c st.usedInDoc, recordColorUsage st.usage c now⟩)

/-- Create one segment per timestamp in `times`, accumulating the
assigned colors in order (stops if assignment yields no color, i.e. the
palette is empty). -/
def runColors (palette : List String) : ColorState → List Nat → List String × ColorState
  | st, [] => ([], st)
  | st, now :: rest =>
    match colorStep palette st now with
    | none => ([], st)
    | some (c, st') =>
      let out := runColors palette st' rest
      (c :: out.1, out.2)

/-- `argminList` picks a member of the list. -/
theorem argminList_mem (key : α → Nat) (l : List α) (m : α)
    (h : argminList key l = some m) : m ∈ l := by
  match l with
  | [] => simp [argminList] at h
  | x :: xs =>
    simp only [argminList, Option.some.injEq] at h
    subst h
    induction xs generalizing x with
    | nil => simp [List.foldl]
    | cons y ys ih =>
      simp only [List.foldl_cons]
      rcases List.mem_cons.mp (ih (if key y < key x then y else x)) with hmem | hmem
      · rw [hmem]
        split <;> simp
      · exact List.mem_cons_of_mem _ (List.mem_cons_of_mem _ hmem)

/-- `argminList` returns the *first* element attaining the minimal key:
the list splits as `l₁ ++ m :: l₂` where every element of `l₁` has a
strictly larger key and `m`'s key is minimal overall.  This is the
head of the stable ascending sort used in the source. -/
theorem argminList_first_min (key : α → Nat) (x : α) (xs : List α) :
    ∃ m l₁ l₂, argminList key (x :: xs) = some m ∧
      x :: xs = l₁ ++ m :: l₂ ∧
      (∀ y ∈ l₁, key m < key y) ∧
      (∀ y ∈ x :: xs, key m ≤ key y) := by
  induction xs generalizing x with
  | nil =>
    refine ⟨x, [], [], rfl, rfl, by simp, by simp⟩
  | cons y ys ih =>
    by_cases hxy : key y < key x
    · rcases ih y with ⟨m, l₁, l₂, hm, hsplit, hstrict, hmin⟩
      have hmy : key m ≤ key y := hmin y (by simp)
      refine ⟨m, x :: l₁, l₂, ?_, ?_, ?_, ?_⟩
      · simpa [argminList, hxy] using hm
      · simpa using congrArg (x :: ·) hsplit
      · intro z hz
        rcases List.mem_cons.mp hz with rfl | hz
        · omega
        · exact hstrict z hz
      · intro z hz
        rcases List.mem_cons.mp hz with rfl | hz
        · omega
        · exact hmin z (hsplit ▸ hz)
    · rcases ih x with ⟨m, l₁, l₂, hm, hsplit, hstrict, hmin⟩
      have hxy' : key x ≤ key y := by omega
      have hmfold : argminList key (x :: y :: ys) = some m := by
        simpa [argminList, hxy] using hm
      match l₁, hsplit with
      | [], hsplit =>
        have hmx : m = x := by
          have := congrArg List.head? hsplit
          simpa using this.symm
        subst hmx
        refine ⟨m, [], y :: ys, hmfold, by simp, by simp, ?_⟩
        intro z hz
        rcases List.mem_cons.mp hz with rfl | hz
        · omega
        · rcases List.mem_cons.mp hz with rfl | hz
          · exact hxy'
          · exact hmin z (List.mem_cons_of_mem m hz)
      | a :: l₁', hsplit =>
        have hsplit' : x :: ys = a :: (l₁' ++ m :: l₂) := by simpa using hsplit
        have hxa : x = a := (List.cons.inj hsplit').1
        have hys : ys = l₁' ++ m :: l₂ := (List.cons.inj hsplit').2
        have hmx : key m < key x := by
          rw [hxa]
          exact hstrict a (List.mem_cons_self a l₁')
        refine ⟨m, x :: y :: l₁', l₂, hmfold, by simp [hys], ?_, ?_⟩
        · intro z hz
          rcases List.mem_cons.mp hz with rfl | hz
          · exact hmx
          · rcases List.mem_cons.mp hz with rfl | hz
            · omega
            · exact hstrict z (List.mem_cons_of_mem a hz)
        · intro z hz
          rcases List.mem_cons.mp hz with rfl | hz
          · omega
          · rcases List.mem_cons.mp hz with rfl | hz
            · omega
            · exact hmin z (List.mem_cons_of_mem x hz)

/-- Behaviour of a run of segment creations while palette colors remain
for the document: every assignment succeeds, the assigned colors are
pairwise distinct palette colors not yet used in the document, and the
document's used-color set grows by exactly the assigned colors. -/
theorem runColors_fresh_spec (palette : List String) (hnd : palette.Nodup) :
    ∀ (times : List Nat) (st : ColorState),
      st.usedInDoc.card + times.length ≤ palette.length →
      (runColors palette st times).1.length = times.length ∧
      (runColors palette st times).1.Nodup ∧
      (∀ c ∈ (runColors palette st times).1, c ∈ palette ∧ c ∉ st.usedInDoc) ∧
      (runColors palette st times).2.usedInDoc =
        st.usedInDoc ∪ (runColors palette st times).1.toFinset := by
  intro times
  induction times with
  | nil =>
    intro st _
    simp [runColors]
  | cons now rest ih =>
    intro st hcard
    have hex : ∃ c ∈ palette, c ∉ st.usedInDoc := by
      by_contra hall
      push_neg at hall
      have hsub : palette.toFinset ⊆ st.usedInDoc := fun c hc =>
        hall c (List.mem_toFinset.mp hc)
      have hle := Finset.card_le_card hsub
      rw [List.toFinset_card_of_nodup hnd] at hle
      simp only [List.length_cons] at hcard
      omega
    match hA : palette.filter (fun c => c ∉ st.usedInDoc) with
    | [] =>
      rcases hex with ⟨c, hc, hcu⟩
      have : c ∈ palette.filter (fun c => c ∉ st.usedInDoc) :=
        List.mem_filter.mpr ⟨hc, by simpa using hcu⟩
      rw [hA] at this
      simp at this
    | a :: arest =>
      have hassign : assignColor palette st.usedInDoc st.usage =
          argminList (lastUsedKey st.usage) (a :: arest) := by
        simp only [assignColor, hA]
      rcases argminList_first_min (lastUsedKey st.usage) a arest with
        ⟨m, _, _, hm, _, _, _⟩
      have hmavail : m ∈ palette.filter (fun c => c ∉ st.usedInDoc) := by
        rw [hA]
        exact argminList_mem _ _ _ hm
      have hmpal : m ∈ palette := (List.mem_filter.mp hmavail).1
      have hmused : m ∉ st.usedInDoc := by
        have := (List.mem_filter.mp hmavail).2
        simpa using this
      have hstep : colorStep palette st now =
          some (m, ⟨insert m st.usedInDoc, recordColorUsage st.usage m now⟩) := by
        simp only [colorStep, hassign, hm]
      have hrun : runColors palette st (now :: rest) =
          (m :: (runColors palette ⟨insert m st.usedInDoc,
              recordColorUsage st.usage m now⟩ rest).1,
           (runColors palette ⟨insert m st.usedInDoc,
              recordColorUsage st.usage m now⟩ rest).2) := by
        simp only [runColors, hstep]
      have hcard' : (insert m st.usedInDoc).card + rest.length ≤ palette.length := by
        rw [Finset.card_insert_of_not_mem hmused]
        simp only [List.length_cons] at hcard
        omega
      rcases ih ⟨insert m st.usedInDoc, recordColorUsage st.usage m now⟩ hcard' with
        ⟨ihlen, ihnd, ihmem, ihused⟩
      refine ⟨?_, ?_, ?_, ?_⟩
      · rw [hrun]
        simp [ihlen]
      · rw [hrun]
        refine List.Nodup.cons ?_ ihnd
        intro hmem
        have := (ihmem m hmem).2
        simp at this
      · rw [hrun]
        intro c hc
        rcases List.mem_cons.mp hc with rfl | hc
        · exact ⟨hmpal, hmused⟩
        · have h1 := ihmem c hc
          refine ⟨h1.1, fun hcu => h1.2 (Finset.mem_insert_of_mem hcu)⟩
      · rw [hrun]
        simp only [ihused, List.toFinset_cons]
        ext z
        simp only [Finset.mem_union, Finset.mem_insert, List.mem_toFinset]
        tauto

/-- When a run completes every step, running on an appended time list is
the concatenation of the two runs. -/
theorem runColors_append (palette : List String) (ts1 ts2 : List Nat) :
    ∀ (st : ColorState), (runColors palette st ts1).1.length = ts1.length →
    runColors palette st (ts1 ++ ts2) =
      ((runColors palette st ts1).1 ++
        (runColors palette (runColors palette st ts1).2 ts2).1,
       (runColors palette (runColors palette st ts1).2 ts2).2) := by
  induction ts1 with
  | nil =>
    intro st _
    simp [runColors]
  | cons t ts ih =>
    intro st hlen
    cases hstep : colorStep palette st t with
    | none =>
      rw [show runColors palette st (t :: ts) = ([], st) by simp [runColors, hstep]] at hlen
      simp at hlen
    | some p =>
      have h1 : runColors palette st (t :: ts) =
          (p.1 :: (runColors palette p.2 ts).1, (runColors palette p.2 ts).2) := by
        simp only [runColors, hstep]
      have h2 : runColors palette st (t :: ts ++ ts2) =
          (p.1 :: (runColors palette p.2 (ts ++ ts2)).1,
           (runColors palette p.2 (ts ++ ts2)).2) := by
        simp only [List.cons_append, runColors, hstep]
        rfl
      rw [h1] at hlen
      simp only [List.length_cons] at hlen
      have := ih p.2 (by omega)
      rw [h2, this, h1]
      rfl

/-- `argminList_first_min` restated for any nonempty list. -/
theorem argminList_first_min_of_ne_nil (key : α → Nat) (l : List α) (h : l ≠ []) :
    ∃ m l₁ l₂, argminList key l = some m ∧
      l = l₁ ++ m :: l₂ ∧
      (∀ y ∈ l₁, key m < key y) ∧
      (∀ y ∈ l, key m ≤ key y) := by
  match l, h with
  | x :: xs, _ => exact argminList_first_min key x xs

/-- **C7.**  For a fresh document (no colors used yet) and a palette of
`N` distinct colors, creating `N + 1` segments with auto-assigned colors
(recording usage after each assignment) gives the first `N` segments
pairwise-distinct palette colors, and the `(N+1)`-th segment the palette
color whose global usage count — in the state `stN` reached after the
first `N` assignments — is minimal, the first such color in palette
order on ties. -/
theorem assignColor_run_spec (palette : List String) (usage0 : String → Option ColorStats)
    (times : List Nat) (hne : palette ≠ []) (hnd : palette.Nodup)
    (hlen : times.length = palette.length + 1) :
    ∃ firstN lastC stN,
      runColors palette ⟨∅, usage0⟩ (times.take palette.length) = (firstN, stN) ∧
      firstN.length = palette.length ∧
      firstN.Nodup ∧
      (∀ c ∈ firstN, c ∈ palette) ∧
      (runColors palette ⟨∅, usage0⟩ times).1 = firstN ++ [lastC] ∧
      (∀ c ∈ palette, countKey stN.usage lastC ≤ countKey stN.usage c) ∧
      (∃ l₁ l₂, palette = l₁ ++ lastC :: l₂ ∧
        ∀ c ∈ l₁, countKey stN.usage lastC < countKey stN.usage c) := by
  have htake : (times.take palette.length).length = palette.length := by
    rw [List.length_take]
    omega
  have hdrop : (times.drop palette.length).length = 1 := by
    rw [List.length_drop]
    omega
  rcases List.length_eq_one.mp hdrop with ⟨t, ht⟩
  rcases runColors_fresh_spec palette hnd (times.take palette.length) ⟨∅, usage0⟩
      (by simp [htake]) with ⟨hflen, hfnd, hfmem, hfused⟩
  have hused : (runColors palette ⟨∅, usage0⟩ (times.take palette.length)).2.usedInDoc =
      (runColors palette ⟨∅, usage0⟩ (times.take palette.length)).1.toFinset := by
    rw [hfused]
    simp
  have husedpal : (runColors palette ⟨∅, usage0⟩ (times.take palette.length)).2.usedInDoc =
      palette.toFinset := by
    rw [hused]
    apply Finset.eq_of_subset_of_card_le
    · intro c hc
      exact List.mem_toFinset.mpr (hfmem c (List.mem_toFinset.mp hc)).1
    · rw [List.toFinset_card_of_nodup hnd, List.toFinset_card_of_nodup hfnd]
      rw [hflen, htake]
  have havailN : palette.filter
      (fun c => c ∉ (runColors palette ⟨∅, usage0⟩ (times.take palette.length)).2.usedInDoc)
      = [] := by
    rw [List.filter_eq_nil_iff]
    intro c hc
    simp [husedpal, hc]
  rcases argminList_first_min_of_ne_nil
      (countKey (runColors palette ⟨∅, usage0⟩ (times.take palette.length)).2.usage)
      palette hne with ⟨m, l₁, l₂, hm, hsplit, hstrict, hmin⟩
  have hassignN : assignColor palette
      (runColors palette ⟨∅, usage0⟩ (times.take palette.length)).2.usedInDoc
      (runColors palette ⟨∅, usage0⟩ (times.take palette.length)).2.usage = some m := by
    have hunfold : assignColor palette
        (runColors palette ⟨∅, usage0⟩ (times.take palette.length)).2.usedInDoc
        (runColors palette ⟨∅, usage0⟩ (times.take palette.length)).2.usage =
        argminList (countKey (runColors palette ⟨∅, usage0⟩
          (times.take palette.length)).2.usage) palette := by
      simp only [assignColor]
      rw [havailN]
    rw [hunfold]
    exact hm
  have hlast : runColors palette
      (runColors palette ⟨∅, usage0⟩ (times.take palette.length)).2 [t] =
      ([m], ⟨insert m (runColors palette ⟨∅, usage0⟩ (times.take palette.length)).2.usedInDoc,
        recordColorUsage (runColors palette ⟨∅, usage0⟩
          (times.take palette.length)).2.usage m t⟩) := by
    have hstep : colorStep palette
        (runColors palette ⟨∅, usage0⟩ (times.take palette.length)).2 t =
        some (m, ⟨insert m (runColors palette ⟨∅, usage0⟩
            (times.take palette.length)).2.usedInDoc,
          recordColorUsage (runColors palette ⟨∅, usage0⟩
            (times.take palette.length)).2.usage m t⟩) := by
      simp only [colorStep, hassignN]
    simp only [runColors, hstep]
  have happ := runColors_append palette (times.take palette.length)
    (times.drop palette.length) ⟨∅, usage0⟩ hflen
  rw [List.take_append_drop] at happ
  refine ⟨(runColors palette ⟨∅, usage0⟩ (times.take palette.length)).1, m,
    (runColors palette ⟨∅, usage0⟩ (times.take palette.length)).2,
    rfl, hflen.trans htake, hfnd, fun c hc => (hfmem c hc).1, ?_, hmin, l₁, l₂, hsplit, hstrict⟩
  rw [happ, ht, hlast]

/-- Witness for `assignColor_run_spec`: two-color palette, empty usage
map, three creations. -/
theorem assignColor_run_spec_witness :
    (["#E57373", "#81C784"] : List String) ≠ [] ∧
    (["#E57373", "#81C784"] : List String).Nodup ∧
    ([10, 20, 30] : List Nat).length = (["#E57373", "#81C784"] : List String).length + 1 ∧
    (∃ firstN lastC stN,
      runColors ["#E57373", "#81C784"] ⟨∅, fun _ => none⟩
          ([10, 20, 30].take (["#E57373", "#81C784"] : List String).length) = (firstN, stN) ∧
      firstN.length = (["#E57373", "#81C784"] : List String).length ∧
      firstN.Nodup ∧
      (∀ c ∈ firstN, c ∈ ["#E57373", "#81C784"]) ∧
      (runColors ["#E57373", "#81C784"] ⟨∅, fun _ => none⟩ [10, 20, 30]).1 = firstN ++ [lastC] ∧
      (∀ c ∈ ["#E57373", "#81C784"], countKey stN.usage lastC ≤ countKey stN.usage c) ∧
      (∃ l₁ l₂, ["#E57373", "#81C784"] = l₁ ++ lastC :: l₂ ∧
        ∀ c ∈ l₁, countKey stN.usage lastC < countKey stN.usage c)) :=
  ⟨by decide, by decide, by decide,
   assignColor_run_spec ["#E57373", "#81C784"] (fun _ => none) [10, 20, 30]
     (by decide) (by decide) (by decide)⟩

/-! ## Reconciliation engine (src/backend/src/services/sync.ts, `syncDocument`)

The database rows carry the columns `syncDocument` reads or writes.
The Google fetch (`googleDocs.fetchDocument` followed by the pure
`extractFullText` / `getCmmsNamedRanges`) is an explicit `FetchOutcome`
input: on success it carries the document title, its full plain text and
the `cmms_segment_<id>` named ranges keyed by segment id (a JS object,
hence unique keys; `getCmmsNamedRanges` copies Google's
`startIndex`/`endIndex` without any ordering check, so a range with
`stop ≤ start` is representable).  `JSON.stringify`-ed log payloads are
not modelled; a log entry keeps user, document, action and status. -/

/-- A `segments` row (the columns sync reads/writes). -/
structure SegmentRow where
  id : Nat
  document_id : Nat
  start_offset : Nat
  end_offset : Nat
  text_content : String
  title : String
  updated_at : Nat
  deriving Repr, DecidableEq

/-- A `documents` row. -/
structure DocRow where
  id : Nat
  user_id : Nat
  google_file_id : String
  title : String
  is_active : Bool
  last_synced_at : Option Nat
  updated_at : Nat
  deriving Repr, DecidableEq

/-- One named range `{start, end}` (`end` is a Lean keyword). -/
structure GRange where
  start : Nat
  stop : Nat
  deriving Repr, DecidableEq

/-- The fetched Google document after text/range extraction. -/
structure GDoc where
  title : String
  fullText : String
  namedRanges : List (Nat × GRange)
  deriving Repr, DecidableEq

/-- Outcome of the fetch: the document, or a thrown error with its
`statusCode`. -/
inductive FetchOutcome where
  | ok (doc : GDoc)
  | err (statusCode : Nat) (message : String)
  deriving Repr, DecidableEq

/-- An entry of `result.orphaned_segments`. -/
structure OrphanInfo where
  id : Nat
  title : String
  last_text : String
  deriving Repr, DecidableEq

inductive ConflictType where
  | marker_missing
  | document_access_lost
  deriving Repr, DecidableEq

/-- An entry of `result.conflicts`; `segment_id = none` models the
literal `'all'` used for access-lost conflicts. -/
structure Conflict where
  segment_id : Option Nat
  type : ConflictType
  details : String
  deriving Repr, DecidableEq

inductive SyncStatus where
  | success
  | failed
  deriving Repr, DecidableEq

/-- The `SyncResult` returned by `syncDocument`. -/
structure SyncResult where
  status : SyncStatus
  updated_segments : Nat
  repositioned_segments : Nat
  orphaned_segments : List OrphanInfo
  conflicts : List Conflict
  deriving Repr, DecidableEq

/-- A `sync_log` row (the details payload is not modelled). -/
structure LogEntry where
  user_id : Nat
  document_id : Option Nat
  action : String
  status : String
  deriving Repr, DecidableEq

/-- The database state `syncDocument` touches. -/
structure SyncState where
  docs : List DocRow
  segs : List SegmentRow
  log : List LogEntry
  deriving Repr, DecidableEq

/-- JS `String.prototype.substring(a, b)`: clamps both indices to the
string length and swaps them when `a > b`.  Indices count characters
(the documents' code points are in the basic plane, where JS UTF-16
indices agree). -/
def jsSubstring (s : String) (a b : Nat) : String :=
  let a' := min a s.length
  let b' := min b s.length
  let lo := min a' b'
  let hi := max a' b'
  ((s.toList.drop lo).take (hi - lo)).asString

/-- `UPDATE segments SET start_offset = $1, end_offset = $2,
text_content = $3, updated_at = NOW() WHERE id = $4`. -/
def applyUpdate (segs : List SegmentRow) (sid st en : Nat) (txt : String)
    (now : Nat) : List SegmentRow :=
  segs.map fun r =>
    if r.id = sid then
      { r with start_offset := st, end_offset := en, text_content := txt,
               updated_at := now }
    else r

/-- One iteration of the reconciliation loop (sync.ts lines 59-96) over
a snapshot segment, threading the accumulated result and the live
`segments` table. -/
def syncStep (fullText : String) (ranges : List (Nat × GRange)) (now : Nat)
    (acc : SyncResult × List SegmentRow) (segment : SegmentRow) :
    SyncResult × List SegmentRow :=
  match ranges.lookup segment.id with
  | none =>
    ({ acc.1 with
        orphaned_segments := acc.1.orphaned_segments ++
          [⟨segment.id, segment.title, segment.text_content⟩],
        conflicts := acc.1.conflicts ++
          [⟨some segment.id, .marker_missing, "Named range not found in Google Doc"⟩] },
     acc.2)
  | some range =>
    let docText := jsSubstring fullText range.start range.stop
    let textChanged := docText ≠ segment.text_content
    let posChanged := range.start ≠ segment.start_offset ∨ range.stop ≠ segment.end_offset
    if textChanged ∨ posChanged then
      ({ acc.1 with
          updated_segments := acc.1.updated_segments + (if textChanged then 1 else 0),
          repositioned_segments := acc.1.repositioned_segments +
            (if posChanged ∧ ¬textChanged then 1 else 0) },
       applyUpdate acc.2 segment.id range.start range.stop docText now)
    else acc

def initSyncResult : SyncResult := ⟨.success, 0, 0, [], []⟩

/-- `logSync` (sync.ts lines 225-230): append one audit row. -/
def logSync (log : List LogEntry) (userId : Nat) (docId : Option Nat)
    (action status : String) : List LogEntry :=
  log ++ [⟨userId, docId, action, status⟩]

/-- `UPDATE documents SET is_active = false, updated_at = NOW() WHERE id = $1`. -/
def deactivateDoc (docs : List DocRow) (docId : Nat) (now : Nat) : List DocRow :=
  docs.map fun d =>
    if d.id = docId then { d with is_active := false, updated_at := now } else d

/-- `syncDocument` (sync.ts lines 8-116).  Returns the thrown error or
the `SyncResult`, together with the database state after the call:
* document not owned/found → `AppError('Document not found', 404)` is
  thrown (and the outer catch logs a failed sync);
* fetch fails with status 404/403 → the document is deactivated
  (autocommit, outside the transaction), a failed sync is logged, and a
  failed-status result with a `document_access_lost` conflict is
  *returned*;
* any other fetch error is rethrown after logging;
* otherwise the reconciliation loop runs over the document's segments
  inside the transaction, document title/`last_synced_at` are updated,
  and a success row is logged. -/
def syncDocument (userId documentId : Nat) (st : SyncState) (fetch : FetchOutcome)
    (now : Nat) : Except AppErr SyncResult × SyncState :=
  match st.docs.find? (fun d => d.id == documentId && d.user_id == userId) with
  | none =>
    (Except.error ⟨"Document not found", 404⟩,
     { st with log := logSync st.log userId (some documentId) "single_sync" "failed" })
  | some _ =>
    match fetch with
    | .err code msg =>
      if code = 404 ∨ code = 403 then
        (Except.ok { initSyncResult with
            status := .failed,
            conflicts := [⟨none, .document_access_lost, msg⟩] },
         { docs := deactivateDoc st.docs documentId now,
           segs := st.segs,
           log := logSync st.log userId (some documentId) "single_sync" "failed" })
      else
        (Except.error ⟨msg, code⟩,
         { st with log := logSync st.log userId (some documentId) "single_sync" "failed" })
    | .ok g =>
      let dbSegments := st.segs.filter (fun s => s.document_id == documentId)
      let folded := dbSegments.foldl (syncStep g.fullText g.namedRanges now)
        (initSyncResult, st.segs)
      (Except.ok folded.1,
       { docs := st.docs.map (fun d =>
           if d.id = documentId then
             { d with last_synced_at := some now, title := g.title, updated_at := now }
           else d),
         segs := folded.2,
         log := logSync st.log userId (some documentId) "single_sync" "success" })

/-! ### Fold characterizations for the reconciliation loop -/

/-- The orphan entry the loop appends for a snapshot segment without a
named range (none otherwise). -/
def orphanEntry (ranges : List (Nat × GRange)) (s : SegmentRow) : Option OrphanInfo :=
  match ranges.lookup s.id with
  | none => some ⟨s.id, s.title, s.text_content⟩
  | some _ => none

/-- The marker-missing conflict the loop appends for a snapshot segment
without a named range (none otherwise). -/
def conflictEntry (ranges : List (Nat × GRange)) (s : SegmentRow) : Option Conflict :=
  match ranges.lookup s.id with
  | none => some ⟨some s.id, .marker_missing, "Named range not found in Google Doc"⟩
  | some _ => none

/-- A row agrees with its named range: offsets match and the stored text
is the corresponding slice of the live text. -/
def agreesWith (ft : String) (rg : GRange) (r : SegmentRow) : Prop :=
  r.start_offset = rg.start ∧ r.end_offset = rg.stop ∧
    r.text_content = jsSubstring ft rg.start rg.stop

/-- The row value written by the loop's UPDATE for range `rg`. -/
def updRow (ft : String) (now : Nat) (rg : GRange) (r : SegmentRow) : SegmentRow :=
  { r with start_offset := rg.start, end_offset := rg.stop,
           text_content := jsSubstring ft rg.start rg.stop, updated_at := now }

theorem syncStep_eq_none (ft : String) (ranges : List (Nat × GRange)) (now : Nat)
    (acc : SyncResult × List SegmentRow) (s : SegmentRow)
    (h : ranges.lookup s.id = none) :
    syncStep ft ranges now acc s =
      ({ acc.1 with
          orphaned_segments := acc.1.orphaned_segments ++ [⟨s.id, s.title, s.text_content⟩],
          conflicts := acc.1.conflicts ++
            [⟨some s.id, .marker_missing, "Named range not found in Google Doc"⟩] },
       acc.2) := by
  simp only [syncStep, h]

theorem syncStep_eq_changed (ft : String) (ranges : List (Nat × GRange)) (now : Nat)
    (acc : SyncResult × List SegmentRow) (s : SegmentRow) (rg : GRange)
    (h : ranges.lookup s.id = some rg)
    (hch : jsSubstring ft rg.start rg.stop ≠ s.text_content ∨
      (rg.start ≠ s.start_offset ∨ rg.stop ≠ s.end_offset)) :
    syncStep ft ranges now acc s =
      ({ acc.1 with
          updated_segments := acc.1.updated_segments +
            (if jsSubstring ft rg.start rg.stop ≠ s.text_content then 1 else 0),
          repositioned_segments := acc.1.repositioned_segments +
            (if (rg.start ≠ s.start_offset ∨ rg.stop ≠ s.end_offset) ∧
                ¬(jsSubstring ft rg.start rg.stop ≠ s.text_content) then 1 else 0) },
       acc.2.map (fun r => if r.id = s.id then updRow ft now rg r else r)) := by
  simp only [syncStep, h]
  rw [if_pos hch]
  rfl

theorem syncStep_eq_unchanged (ft : String) (ranges : List (Nat × GRange)) (now : Nat)
    (acc : SyncResult × List SegmentRow) (s : SegmentRow) (rg : GRange)
    (h : ranges.lookup s.id = some rg)
    (hch : ¬(jsSubstring ft rg.start rg.stop ≠ s.text_content ∨
      (rg.start ≠ s.start_offset ∨ rg.stop ≠ s.end_offset))) :
    syncStep ft ranges now acc s = acc := by
  simp only [syncStep, h]
  rw [if_neg hch]

/-- The loop only appends to `orphaned_segments`: its final value is the
initial one followed by one entry per snapshot segment lacking a range. -/
theorem syncFold_orphans (ft : String) (ranges : List (Nat × GRange)) (now : Nat) :
    ∀ (L : List SegmentRow) (res : SyncResult) (segs : List SegmentRow),
      (L.foldl (syncStep ft ranges now) (res, segs)).1.orphaned_segments =
        res.orphaned_segments ++ L.filterMap (orphanEntry ranges) := by
  intro L
  induction L with
  | nil =>
    intro res segs
    simp
  | cons s L ih =>
    intro res segs
    rw [List.foldl_cons]
    cases hlk : ranges.lookup s.id with
    | none =>
      rw [syncStep_eq_none ft ranges now (res, segs) s hlk, ih]
      simp [orphanEntry, hlk]
    | some rg =>
      by_cases hch : jsSubstring ft rg.start rg.stop ≠ s.text_content ∨
          (rg.start ≠ s.start_offset ∨ rg.stop ≠ s.end_offset)
      · rw [syncStep_eq_changed ft ranges now (res, segs) s rg hlk hch, ih]
        simp [orphanEntry, hlk]
      · rw [syncStep_eq_unchanged ft ranges now (res, segs) s rg hlk hch, ih]
        simp [orphanEntry, hlk]

/-- Same for `conflicts` (in the success path conflicts arise only from
missing markers). -/
theorem syncFold_conflicts (ft : String) (ranges : List (Nat × GRange)) (now : Nat) :
    ∀ (L : List SegmentRow) (res : SyncResult) (segs : List SegmentRow),
      (L.foldl (syncStep ft ranges now) (res, segs)).1.conflicts =
        res.conflicts ++ L.filterMap (conflictEntry ranges) := by
  intro L
  induction L with
  | nil =>
    intro res segs
    simp
  | cons s L ih =>
    intro res segs
    rw [List.foldl_cons]
    cases hlk : ranges.lookup s.id with
    | none =>
      rw [syncStep_eq_none ft ranges now (res, segs) s hlk, ih]
      simp [conflictEntry, hlk]
    | some rg =>
      by_cases hch : jsSubstring ft rg.start rg.stop ≠ s.text_content ∨
          (rg.start ≠ s.start_offset ∨ rg.stop ≠ s.end_offset)
      · rw [syncStep_eq_changed ft ranges now (res, segs) s rg hlk hch, ih]
        simp [conflictEntry, hlk]
      · rw [syncStep_eq_unchanged ft ranges now (res, segs) s rg hlk hch, ih]
        simp [conflictEntry, hlk]

/-- The loop transforms the live `segments` table pointwise: there is a
per-row function `F` (the net effect of all UPDATEs issued) that fixes
rows whose id is outside the snapshot or has no named range, preserves
id, document and title, and otherwise either fixes a row or writes its
range's values. -/
theorem syncFold_segs_map (ft : String) (ranges : List (Nat × GRange)) (now : Nat) :
    ∀ (L : List SegmentRow) (res : SyncResult) (segs : List SegmentRow),
      ∃ F : SegmentRow → SegmentRow,
        (L.foldl (syncStep ft ranges now) (res, segs)).2 = segs.map F ∧
        (∀ r, (F r).id = r.id ∧ (F r).document_id = r.document_id ∧ (F r).title = r.title) ∧
        (∀ r, r.id ∉ L.map (fun s => s.id) → F r = r) ∧
        (∀ r, ranges.lookup r.id = none → F r = r) ∧
        (∀ r rg, ranges.lookup r.id = some rg → F r = r ∨ F r = updRow ft now rg r) := by
  intro L
  induction L with
  | nil =>
    intro res segs
    exact ⟨id, by simp, by simp, fun _ _ => rfl, fun _ _ => rfl, fun _ _ _ => Or.inl rfl⟩
  | cons s L ih =>
    intro res segs
    rw [List.foldl_cons]
    cases hlk : ranges.lookup s.id with
    | none =>
      rw [syncStep_eq_none ft ranges now (res, segs) s hlk]
      rcases ih _ segs with ⟨F, hmap, hpres, hout, hnone, hsome⟩
      refine ⟨F, hmap, hpres, ?_, hnone, hsome⟩
      intro r hr
      exact hout r (fun hmem => hr (by simp only [List.map_cons, List.mem_cons]; right; exact hmem))
    | some rg =>
      by_cases hch : jsSubstring ft rg.start rg.stop ≠ s.text_content ∨
          (rg.start ≠ s.start_offset ∨ rg.stop ≠ s.end_offset)
      · rw [syncStep_eq_changed ft ranges now (res, segs) s rg hlk hch]
        rcases ih _ (segs.map (fun r => if r.id = s.id then updRow ft now rg r else r)) with
          ⟨F, hmap, hpres, hout, hnone, hsome⟩
        refine ⟨F ∘ (fun r => if r.id = s.id then updRow ft now rg r else r), ?_, ?_, ?_, ?_, ?_⟩
        · rw [hmap, List.map_map]
        · intro r
          simp only [Function.comp_apply]
          by_cases hid : r.id = s.id
          · rw [if_pos hid]
            rcases hpres (updRow ft now rg r) with ⟨h1, h2, h3⟩
            exact ⟨h1.trans rfl, h2.trans rfl, h3.trans rfl⟩
          · rw [if_neg hid]
            exact hpres r
        · intro r hr
          simp only [Function.comp_apply]
          have hne : r.id ≠ s.id := fun h => hr (by simp [h])
          have hnotin : r.id ∉ L.map (fun s => s.id) := fun h => hr (by simp [h])
          rw [if_neg hne]
          exact hout r hnotin
        · intro r hr
          simp only [Function.comp_apply]
          have hne : r.id ≠ s.id := fun h => by rw [h] at hr; rw [hlk] at hr; exact Option.noConfusion hr
          rw [if_neg hne]
          exact hnone r hr
        · intro r rg' hr
          simp only [Function.comp_apply]
          by_cases hid : r.id = s.id
          · have hrg : rg' = rg := by
              rw [hid, hlk] at hr
              exact (Option.some.inj hr).symm
            rw [if_pos hid]
            rcases hsome (updRow ft now rg r) rg (by simpa [updRow, hid] using hlk) with h | h
            · right
              rw [h, hrg]
            · right
              rw [h, hrg]
              simp [updRow]
          · rw [if_neg hid]
            exact hsome r rg' hr
      · rw [syncStep_eq_unchanged ft ranges now (res, segs) s rg hlk hch]
        rcases ih _ segs with ⟨F, hmap, hpres, hout, hnone, hsome⟩
        refine ⟨F, hmap, hpres, ?_, hnone, hsome⟩
        intro r hr
        exact hout r (fun hmem => hr (by simp only [List.map_cons, List.mem_cons]; right; exact hmem))

/-- If every snapshot segment already agrees with its named range, the
loop changes nothing: no UPDATE is issued, the counters stay, the status
stays. -/
theorem syncFold_noop (ft : String) (ranges : List (Nat × GRange)) (now : Nat) :
    ∀ (L : List SegmentRow) (res : SyncResult) (segs : List SegmentRow),
      (∀ s ∈ L, ∀ rg, ranges.lookup s.id = some rg → agreesWith ft rg s) →
      (L.foldl (syncStep ft ranges now) (res, segs)).2 = segs ∧
      (L.foldl (syncStep ft ranges now) (res, segs)).1.updated_segments =
        res.updated_segments ∧
      (L.foldl (syncStep ft ranges now) (res, segs)).1.repositioned_segments =
        res.repositioned_segments ∧
      (L.foldl (syncStep ft ranges now) (res, segs)).1.status = res.status := by
  intro L
  induction L with
  | nil =>
    intro res segs _
    simp
  | cons s L ih =>
    intro res segs hagree
    rw [List.foldl_cons]
    cases hlk : ranges.lookup s.id with
    | none =>
      rw [syncStep_eq_none ft ranges now (res, segs) s hlk]
      exact ih _ segs (fun s' hs' => hagree s' (List.mem_cons_of_mem s hs'))
    | some rg =>
      have hag := hagree s (List.mem_cons_self s L) rg hlk
      rcases hag with ⟨h1, h2, h3⟩
      have hch : ¬(jsSubstring ft rg.start rg.stop ≠ s.text_content ∨
          (rg.start ≠ s.start_offset ∨ rg.stop ≠ s.end_offset)) := by
        push_neg
        exact ⟨h3.symm, h1.symm, h2.symm⟩
      rw [syncStep_eq_unchanged ft ranges now (res, segs) s rg hlk hch]
      exact ih res segs (fun s' hs' => hagree s' (List.mem_cons_of_mem s hs'))

/-- A row written by the UPDATE agrees with its range. -/
theorem agreesWith_updRow (ft : String) (now : Nat) (rg : GRange) (r : SegmentRow) :
    agreesWith ft rg (updRow ft now rg r) := by
  simp [agreesWith, updRow]

/-- After the whole loop, every live row whose id belongs to the snapshot
and has a named range agrees with that range — whether the loop wrote it
(it writes exactly the range's values) or left it alone (then it already
agreed).  Snapshot coherence (`hcoh`) and distinct snapshot ids reflect
that the snapshot is a read of the table under its primary key. -/
theorem syncFold_establishes_agree (ft : String) (ranges : List (Nat × GRange)) (now : Nat) :
    ∀ (L : List SegmentRow) (res : SyncResult) (segs : List SegmentRow),
      (∀ s ∈ L, ∀ r ∈ segs, r.id = s.id → r = s) →
      ((L.map (fun s => s.id)).Nodup) →
      ∀ s ∈ L, ∀ rg, ranges.lookup s.id = some rg →
      ∀ r ∈ (L.foldl (syncStep ft ranges now) (res, segs)).2, r.id = s.id →
        agreesWith ft rg r := by
  intro L
  induction L with
  | nil =>
    intro res segs _ _ s hs
    exact absurd hs (List.not_mem_nil s)
  | cons s₀ L ih =>
    intro res segs hcoh hnd s hs rg hrg r hr hid
    have hnd' : (s₀.id :: L.map (fun s => s.id)).Nodup := by
      rw [← List.map_cons]
      exact hnd
    have hndc := List.nodup_cons.mp hnd'
    rw [List.foldl_cons] at hr
    rcases List.mem_cons.mp hs with rfl | hsL
    · -- the target segment is the head of the snapshot
      by_cases hch : jsSubstring ft rg.start rg.stop ≠ s.text_content ∨
          (rg.start ≠ s.start_offset ∨ rg.stop ≠ s.end_offset)
      · rw [syncStep_eq_changed ft ranges now (res, segs) s rg hrg hch] at hr
        rcases syncFold_segs_map ft ranges now L _
            (segs.map (fun r => if r.id = s.id then updRow ft now rg r else r)) with
          ⟨F, hmap, hpresF, houtF, _, _⟩
        rw [hmap] at hr
        rcases List.mem_map.mp hr with ⟨r₁, hr₁, rfl⟩
        have hid₁ : r₁.id = s.id := by rw [← (hpresF r₁).1]; exact hid
        have hFr : F r₁ = r₁ := houtF r₁ (by rw [hid₁]; exact hndc.1)
        rw [hFr]
        rcases List.mem_map.mp hr₁ with ⟨r₀, _, rfl⟩
        by_cases hid₀ : r₀.id = s.id
        · rw [if_pos hid₀]
          exact agreesWith_updRow ft now rg r₀
        · rw [if_neg hid₀] at hid₁ ⊢
          exact absurd hid₁ hid₀
      · rw [syncStep_eq_unchanged ft ranges now (res, segs) s rg hrg hch] at hr
        push_neg at hch
        rcases syncFold_segs_map ft ranges now L res segs with ⟨F, hmap, hpresF, houtF, _, _⟩
        rw [hmap] at hr
        rcases List.mem_map.mp hr with ⟨r₀, hr₀, rfl⟩
        have hid₀ : r₀.id = s.id := by rw [← (hpresF r₀).1]; exact hid
        have hFr : F r₀ = r₀ := houtF r₀ (by rw [hid₀]; exact hndc.1)
        rw [hFr]
        have hr₀s : r₀ = s := hcoh s (List.mem_cons_self s L) r₀ hr₀ hid₀
        rw [hr₀s]
        exact ⟨hch.2.1.symm, hch.2.2.symm, hch.1.symm⟩
    · -- the target segment is in the tail
      cases hlk : ranges.lookup s₀.id with
      | none =>
        rw [syncStep_eq_none ft ranges now (res, segs) s₀ hlk] at hr
        refine ih _ segs ?_ hndc.2 s hsL rg hrg r hr hid
        exact fun s' hs' => hcoh s' (List.mem_cons_of_mem s₀ hs')
      | some rg₀ =>
        by_cases hch : jsSubstring ft rg₀.start rg₀.stop ≠ s₀.text_content ∨
            (rg₀.start ≠ s₀.start_offset ∨ rg₀.stop ≠ s₀.end_offset)
        · rw [syncStep_eq_changed ft ranges now (res, segs) s₀ rg₀ hlk hch] at hr
          refine ih _ _ ?_ hndc.2 s hsL rg hrg r hr hid
          intro s' hs' r' hr' hid'
          rcases List.mem_map.mp hr' with ⟨r₀, hr₀, rfl⟩
          by_cases hid₀ : r₀.id = s₀.id
          · exfalso
            rw [if_pos hid₀] at hid'
            have : s'.id = s₀.id := by
              rw [← hid']
              simpa [updRow] using hid₀
            exact hndc.1 (by
              rw [← this]
              exact List.mem_map.mpr ⟨s', hs', rfl⟩)
          · rw [if_neg hid₀] at hid' ⊢
            exact hcoh s' (List.mem_cons_of_mem s₀ hs') r₀ hr₀ hid'
        · rw [syncStep_eq_unchanged ft ranges now (res, segs) s₀ rg₀ hlk hch] at hr
          refine ih res segs ?_ hndc.2 s hsL rg hrg r hr hid
          exact fun s' hs' => hcoh s' (List.mem_cons_of_mem s₀ hs')

/-! ## Input validation (src/backend/src/middleware/validation.ts)

The zod schemas guarding the three offset-writing request paths.  Only
the numeric/text constraints are embedded (offsets are JS numbers, hence
`Int` before validation); the uuid/color-format checks concern other
fields. -/

/-- Body of `POST /segments` (`createSegmentSchema`, lines 62-76). -/
structure CreateSegmentBody where
  document_id : Nat
  category_id : Nat
  start_offset : Int
  end_offset : Int
  text_content : String
  deriving Repr, DecidableEq

/-- `createSegmentSchema`: `start_offset ≥ 0`, `end_offset ≥ 0`,
`text_content` nonempty, and the refinement `end_offset > start_offset`. -/
def createSegmentSchemaOk (b : CreateSegmentBody) : Bool :=
  (0 ≤ b.start_offset) && (0 ≤ b.end_offset) &&
    (1 ≤ b.text_content.length) && (b.start_offset < b.end_offset)

/-- Body of `POST /segments/:id/associate` (`associateSegmentSchema`,
lines 78-89). -/
structure AssociateSegmentBody where
  target_document_id : Nat
  start_offset : Int
  end_offset : Int
  text_content : String
  deriving Repr, DecidableEq

def associateSegmentSchemaOk (b : AssociateSegmentBody) : Bool :=
  (0 ≤ b.start_offset) && (0 ≤ b.end_offset) &&
    (1 ≤ b.text_content.length) && (b.start_offset < b.end_offset)

/-- Body of `PUT /segments/:id/markers` (`updateMarkersSchema`,
lines 100-108). -/
structure UpdateMarkersBody where
  start_offset : Int
  end_offset : Int
  deriving Repr, DecidableEq

def updateMarkersSchemaOk (b : UpdateMarkersBody) : Bool :=
  (0 ≤ b.start_offset) && (0 ≤ b.end_offset) && (b.start_offset < b.end_offset)

/-! ### C2: the offset invariant -/

/-- **C2 (counterexample).**  The reconciliation path persists offsets
taken from the fetched named ranges without any `end > start` check (and
the `segments` table has no CHECK constraint): syncing a document whose
named range for segment 7 is the degenerate `{start: 5, end: 5}`
succeeds (the text changed, so an UPDATE is issued) and leaves a
persisted row with `end_offset = start_offset = 5` — the violating input
is not rejected. -/
theorem syncDocument_persists_degenerate_offsets :
    ((syncDocument 1 1 ⟨[⟨1, 1, "gf", "Doc", true, none, 0⟩],
        [⟨7, 1, 0, 1, "x", "seg7", 0⟩], []⟩
        (.ok ⟨"Doc", "hello world", [(7, ⟨5, 5⟩)]⟩) 5).1 =
      Except.ok ⟨.success, 1, 0, [], []⟩) ∧
    ((syncDocument 1 1 ⟨[⟨1, 1, "gf", "Doc", true, none, 0⟩],
        [⟨7, 1, 0, 1, "x", "seg7", 0⟩], []⟩
        (.ok ⟨"Doc", "hello world", [(7, ⟨5, 5⟩)]⟩) 5).2.segs.all
      (fun r => r.start_offset < r.end_offset) = false) := by
  constructor
  · rfl
  · rfl

/-- **C2 (amended).**  `end_offset > start_offset` is enforced by input
validation on the three request paths that write offsets — explicit
create, association-created copy, and marker update — whose schemas
reject any violating body before the services run; the reconciliation
path carries no such check (see the counterexample). -/
theorem offset_validation_on_validated_paths (c : CreateSegmentBody)
    (a : AssociateSegmentBody) (m : UpdateMarkersBody) :
    (createSegmentSchemaOk c = true → c.start_offset < c.end_offset) ∧
    (associateSegmentSchemaOk a = true → a.start_offset < a.end_offset) ∧
    (updateMarkersSchemaOk m = true → m.start_offset < m.end_offset) := by
  refine ⟨fun h => ?_, fun h => ?_, fun h => ?_⟩
  · simp only [createSegmentSchemaOk, Bool.and_eq_true, decide_eq_true_eq] at h
    exact h.2
  · simp only [associateSegmentSchemaOk, Bool.and_eq_true, decide_eq_true_eq] at h
    exact h.2
  · simp only [updateMarkersSchemaOk, Bool.and_eq_true, decide_eq_true_eq] at h
    exact h.2

/-- Witness for `offset_validation_on_validated_paths` at concrete
bodies. -/
theorem offset_validation_on_validated_paths_witness :
    (createSegmentSchemaOk ⟨1, 1, 0, 3, "t"⟩ = true ∧
      (⟨1, 1, 0, 3, "t"⟩ : CreateSegmentBody).start_offset <
        (⟨1, 1, 0, 3, "t"⟩ : CreateSegmentBody).end_offset) ∧
    (associateSegmentSchemaOk ⟨1, 2, 7, "u"⟩ = true ∧
      (⟨1, 2, 7, "u"⟩ : AssociateSegmentBody).start_offset <
        (⟨1, 2, 7, "u"⟩ : AssociateSegmentBody).end_offset) ∧
    (updateMarkersSchemaOk ⟨4, 9⟩ = true ∧
      (⟨4, 9⟩ : UpdateMarkersBody).start_offset <
        (⟨4, 9⟩ : UpdateMarkersBody).end_offset) :=
  ⟨⟨by decide, (offset_validation_on_validated_paths ⟨1, 1, 0, 3, "t"⟩ ⟨1, 2, 7, "u"⟩
      ⟨4, 9⟩).1 (by decide)⟩,
   ⟨by decide, (offset_validation_on_validated_paths ⟨1, 1, 0, 3, "t"⟩ ⟨1, 2, 7, "u"⟩
      ⟨4, 9⟩).2.1 (by decide)⟩,
   ⟨by decide, (offset_validation_on_validated_paths ⟨1, 1, 0, 3, "t"⟩ ⟨1, 2, 7, "u"⟩
      ⟨4, 9⟩).2.2 (by decide)⟩⟩

/-! ### C5: access-lost handling -/

/-- **C5.**  With the document found, a fetch failure with status 404 or
403 makes `syncDocument` deactivate the document row, append a failed
sync-log entry, and *return* a failed-status result carrying a
`document_access_lost` conflict — no exception reaches the caller; any
other fetch error is rethrown (after the rollback/log of the outer
catch), leaving documents and segments untouched. -/
theorem syncDocument_access_lost (userId documentId : Nat) (st : SyncState)
    (code : Nat) (msg : String) (now : Nat) (d : DocRow)
    (hfind : st.docs.find? (fun d => d.id == documentId && d.user_id == userId) = some d) :
    ((code = 404 ∨ code = 403) →
      syncDocument userId documentId st (.err code msg) now =
        (Except.ok { initSyncResult with
            status := .failed,
            conflicts := [⟨none, .document_access_lost, msg⟩] },
         { docs := deactivateDoc st.docs documentId now,
           segs := st.segs,
           log := logSync st.log userId (some documentId) "single_sync" "failed" }) ∧
      (∀ dd ∈ deactivateDoc st.docs documentId now, dd.id = documentId →
        dd.is_active = false)) ∧
    (¬(code = 404 ∨ code = 403) →
      syncDocument userId documentId st (.err code msg) now =
        (Except.error ⟨msg, code⟩,
         { st with log := logSync st.log userId (some documentId) "single_sync" "failed" })) := by
  constructor
  · intro hcode
    constructor
    · simp only [syncDocument, hfind, if_pos hcode]
    · intro dd hdd hddid
      simp only [deactivateDoc, List.mem_map] at hdd
      rcases hdd with ⟨d0, _, rfl⟩
      by_cases h0 : d0.id = documentId
      · rw [if_pos h0]
      · rw [if_neg h0] at hddid ⊢
        exact absurd hddid h0
  · intro hcode
    simp only [syncDocument, hfind, if_neg hcode]

/-- Witness for `syncDocument_access_lost` with a one-document state and
a 404 fetch failure. -/
theorem syncDocument_access_lost_witness :
    (([⟨1, 1, "gf", "Doc", true, none, 0⟩] : List DocRow).find?
        (fun d => d.id == 1 && d.user_id == 1) = some ⟨1, 1, "gf", "Doc", true, none, 0⟩) ∧
    ((((404 : Nat) = 404 ∨ (404 : Nat) = 403) →
      syncDocument 1 1 ⟨[⟨1, 1, "gf", "Doc", true, none, 0⟩], [], []⟩ (.err 404 "gone") 9 =
        (Except.ok { initSyncResult with
            status := .failed,
            conflicts := [⟨none, .document_access_lost, "gone"⟩] },
         { docs := deactivateDoc [⟨1, 1, "gf", "Doc", true, none, 0⟩] 1 9,
           segs := [],
           log := logSync [] 1 (some 1) "single_sync" "failed" }) ∧
      (∀ dd ∈ deactivateDoc [⟨1, 1, "gf", "Doc", true, none, 0⟩] 1 9, dd.id = 1 →
        dd.is_active = false)) ∧
    (¬((404 : Nat) = 404 ∨ (404 : Nat) = 403) →
      syncDocument 1 1 ⟨[⟨1, 1, "gf", "Doc", true, none, 0⟩], [], []⟩ (.err 404 "gone") 9 =
        (Except.error ⟨"gone", 404⟩,
         { docs := [⟨1, 1, "gf", "Doc", true, none, 0⟩], segs := [],
           log := logSync [] 1 (some 1) "single_sync" "failed" }))) :=
  ⟨by decide,
   syncDocument_access_lost 1 1 ⟨[⟨1, 1, "gf", "Doc", true, none, 0⟩], [], []⟩ 404 "gone" 9
     ⟨1, 1, "gf", "Doc", true, none, 0⟩ (by decide)⟩

/-! ### C4: orphan detection -/

/-- **C4.**  During a successful reconciliation, every stored segment of
the document whose id has no named range in the fetched document shows
up in `orphaned_segments` and as a `marker_missing` conflict, and its
row survives the sync verbatim (neither deleted nor mutated). -/
theorem syncDocument_orphan_detection (userId documentId : Nat) (st : SyncState)
    (g : GDoc) (now : Nat) (d : DocRow)
    (hfind : st.docs.find? (fun d => d.id == documentId && d.user_id == userId) = some d)
    (seg : SegmentRow) (hseg : seg ∈ st.segs) (hdoc : seg.document_id = documentId)
    (hrange : g.namedRanges.lookup seg.id = none) :
    ∃ r, (syncDocument userId documentId st (.ok g) now).1 = Except.ok r ∧
      (⟨seg.id, seg.title, seg.text_content⟩ : OrphanInfo) ∈ r.orphaned_segments ∧
      (⟨some seg.id, .marker_missing, "Named range not found in Google Doc"⟩ : Conflict)
        ∈ r.conflicts ∧
      seg ∈ (syncDocument userId documentId st (.ok g) now).2.segs := by
  have hsegL : seg ∈ st.segs.filter (fun s => s.document_id == documentId) :=
    List.mem_filter.mpr ⟨hseg, by simp [hdoc]⟩
  refine ⟨((st.segs.filter (fun s => s.document_id == documentId)).foldl
      (syncStep g.fullText g.namedRanges now) (initSyncResult, st.segs)).1, ?_, ?_, ?_, ?_⟩
  · simp only [syncDocument, hfind]
  · rw [syncFold_orphans]
    refine List.mem_append.mpr (Or.inr ?_)
    exact List.mem_filterMap.mpr ⟨seg, hsegL, by simp [orphanEntry, hrange]⟩
  · rw [syncFold_conflicts]
    refine List.mem_append.mpr (Or.inr ?_)
    exact List.mem_filterMap.mpr ⟨seg, hsegL, by simp [conflictEntry, hrange]⟩
  · simp only [syncDocument, hfind]
    rcases syncFold_segs_map g.fullText g.namedRanges now
        (st.segs.filter (fun s => s.document_id == documentId)) initSyncResult st.segs with
      ⟨F, hmap, _, _, hnoneF, _⟩
    rw [hmap]
    exact List.mem_map.mpr ⟨seg, hseg, hnoneF seg hrange⟩

/-- Witness for `syncDocument_orphan_detection`: one registered segment,
no named ranges in the fetched document. -/
theorem syncDocument_orphan_detection_witness :
    (([⟨1, 1, "gf", "Doc", true, none, 0⟩] : List DocRow).find?
        (fun d => d.id == 1 && d.user_id == 1) = some ⟨1, 1, "gf", "Doc", true, none, 0⟩) ∧
    ((⟨7, 1, 0, 1, "x", "seg7", 0⟩ : SegmentRow) ∈
      ([⟨7, 1, 0, 1, "x", "seg7", 0⟩] : List SegmentRow)) ∧
    ((⟨7, 1, 0, 1, "x", "seg7", 0⟩ : SegmentRow).document_id = 1) ∧
    (([] : List (Nat × GRange)).lookup (7 : Nat) = none) ∧
    (∃ r, (syncDocument 1 1 ⟨[⟨1, 1, "gf", "Doc", true, none, 0⟩],
          [⟨7, 1, 0, 1, "x", "seg7", 0⟩], []⟩
        (.ok ⟨"Doc", "hello world", []⟩) 5).1 = Except.ok r ∧
      (⟨7, "seg7", "x"⟩ : OrphanInfo) ∈ r.orphaned_segments ∧
      (⟨some 7, .marker_missing, "Named range not found in Google Doc"⟩ : Conflict)
        ∈ r.conflicts ∧
      (⟨7, 1, 0, 1, "x", "seg7", 0⟩ : SegmentRow) ∈
        (syncDocument 1 1 ⟨[⟨1, 1, "gf", "Doc", true, none, 0⟩],
            [⟨7, 1, 0, 1, "x", "seg7", 0⟩], []⟩
          (.ok ⟨"Doc", "hello world", []⟩) 5).2.segs) :=
  ⟨by decide, by decide, by decide, by decide,
   syncDocument_orphan_detection 1 1
     ⟨[⟨1, 1, "gf", "Doc", true, none, 0⟩], [⟨7, 1, 0, 1, "x", "seg7", 0⟩], []⟩
     ⟨"Doc", "hello world", []⟩ 5 ⟨1, 1, "gf", "Doc", true, none, 0⟩ (by decide)
     ⟨7, 1, 0, 1, "x", "seg7", 0⟩ (by decide) (by decide) (by decide)⟩

/-! ### C3: idempotence of reconciliation -/

/-- **C3 (counterexample).**  A document with one stored segment whose
marker is missing: the first sync *succeeds* (status success, the orphan
is only reported), nothing external changes, yet the second run reports
the same non-empty `orphaned_segments` list — not the empty list the
claim requires. -/
theorem syncDocument_second_run_keeps_orphans :
    ((syncDocument 1 1 ⟨[⟨1, 1, "gf", "Doc", true, none, 0⟩],
        [⟨7, 1, 0, 1, "x", "seg7", 0⟩], []⟩ (.ok ⟨"Doc", "hello world", []⟩) 5).1 =
      Except.ok ⟨.success, 0, 0, [⟨7, "seg7", "x"⟩],
        [⟨some 7, .marker_missing, "Named range not found in Google Doc"⟩]⟩) ∧
    ((syncDocument 1 1
        (syncDocument 1 1 ⟨[⟨1, 1, "gf", "Doc", true, none, 0⟩],
          [⟨7, 1, 0, 1, "x", "seg7", 0⟩], []⟩ (.ok ⟨"Doc", "hello world", []⟩) 5).2
        (.ok ⟨"Doc", "hello world", []⟩) 6).1 =
      Except.ok ⟨.success, 0, 0, [⟨7, "seg7", "x"⟩],
        [⟨some 7, .marker_missing, "Named range not found in Google Doc"⟩]⟩) ∧
    (([⟨7, "seg7", "x"⟩] : List OrphanInfo) ≠ []) := by
  refine ⟨rfl, rfl, by decide⟩

/-- `find?` commutes with a map that does not change the predicate. -/
theorem find_map_pred_comm {α : Type} (f : α → α) (p : α → Bool)
    (hf : ∀ x, p (f x) = p x) : ∀ (l : List α),
    (l.map f).find? p = (l.find? p).map f := by
  intro l
  induction l with
  | nil => rfl
  | cons x l ih =>
    cases hp : p x with
    | true =>
      rw [List.map_cons, List.find?_cons_of_pos _ (by rw [hf x]; exact hp),
        List.find?_cons_of_pos _ hp]
      rfl
    | false =>
      rw [List.map_cons, List.find?_cons_of_neg _ (by rw [hf x, hp]; simp),
        List.find?_cons_of_neg _ (by rw [hp]; simp)]
      exact ih

/-- The outcome component of `syncDocument` on a successful fetch with
the document found: the fold result of the reconciliation loop. -/
theorem syncDocument_ok_outcome (userId documentId : Nat) (st : SyncState) (g : GDoc)
    (now : Nat) (d : DocRow)
    (hfind : st.docs.find? (fun d => d.id == documentId && d.user_id == userId) = some d) :
    (syncDocument userId documentId st (.ok g) now).1 =
      Except.ok ((st.segs.filter (fun s => s.document_id == documentId)).foldl
        (syncStep g.fullText g.namedRanges now) (initSyncResult, st.segs)).1 := by
  simp only [syncDocument, hfind]

/-- The `segments` table after `syncDocument` on a successful fetch. -/
theorem syncDocument_ok_segs (userId documentId : Nat) (st : SyncState) (g : GDoc)
    (now : Nat) (d : DocRow)
    (hfind : st.docs.find? (fun d => d.id == documentId && d.user_id == userId) = some d) :
    (syncDocument userId documentId st (.ok g) now).2.segs =
      ((st.segs.filter (fun s => s.document_id == documentId)).foldl
        (syncStep g.fullText g.namedRanges now) (initSyncResult, st.segs)).2 := by
  simp only [syncDocument, hfind]

/-- The `documents` table after `syncDocument` on a successful fetch:
title and `last_synced_at` of the synced document are refreshed. -/
theorem syncDocument_ok_docs (userId documentId : Nat) (st : SyncState) (g : GDoc)
    (now : Nat) (d : DocRow)
    (hfind : st.docs.find? (fun d => d.id == documentId && d.user_id == userId) = some d) :
    (syncDocument userId documentId st (.ok g) now).2.docs =
      st.docs.map (fun d =>
        if d.id = documentId then
          { d with last_synced_at := some now, title := g.title, updated_at := now }
        else d) := by
  simp only [syncDocument, hfind]

/-- **C3 (amended).**  When a sync of a document succeeds and the
external document (text, title, named ranges) is unchanged, a second
sync succeeds with `updated_segments = 0`, `repositioned_segments = 0`,
*the same* `orphaned_segments` list as the first run (empty exactly when
the first run reported none), and leaves every segment row unchanged.
The distinct-ids hypothesis reflects the `segments` primary key. -/
theorem syncDocument_idempotent_amended (userId documentId : Nat) (st : SyncState)
    (g : GDoc) (now1 now2 : Nat)
    (hnd : (st.segs.map (fun s => s.id)).Nodup)
    (r1 : SyncResult)
    (h1 : (syncDocument userId documentId st (.ok g) now1).1 = Except.ok r1) :
    ∃ r2,
      (syncDocument userId documentId
        (syncDocument userId documentId st (.ok g) now1).2 (.ok g) now2).1 =
          Except.ok r2 ∧
      r2.updated_segments = 0 ∧
      r2.repositioned_segments = 0 ∧
      r2.orphaned_segments = r1.orphaned_segments ∧
      (syncDocument userId documentId
        (syncDocument userId documentId st (.ok g) now1).2 (.ok g) now2).2.segs =
      (syncDocument userId documentId st (.ok g) now1).2.segs := by
  cases hfind : st.docs.find? (fun d => d.id == documentId && d.user_id == userId) with
  | none =>
    rw [show (syncDocument userId documentId st (.ok g) now1).1 =
        Except.error ⟨"Document not found", 404⟩ by simp only [syncDocument, hfind]] at h1
    exact absurd h1 (by simp)
  | some d =>
    have hr1 : r1 = ((st.segs.filter (fun s => s.document_id == documentId)).foldl
        (syncStep g.fullText g.namedRanges now1) (initSyncResult, st.segs)).1 := by
      rw [syncDocument_ok_outcome userId documentId st g now1 d hfind] at h1
      exact (Except.ok.inj h1).symm
    rcases syncFold_segs_map g.fullText g.namedRanges now1
        (st.segs.filter (fun s => s.document_id == documentId)) initSyncResult st.segs with
      ⟨F, hmap, hpres, _, hnoneF, _⟩
    have hsegs1 : (syncDocument userId documentId st (.ok g) now1).2.segs =
        st.segs.map F := by
      rw [syncDocument_ok_segs userId documentId st g now1 d hfind]
      exact hmap
    have hfind2 : (syncDocument userId documentId st (.ok g) now1).2.docs.find?
        (fun d => d.id == documentId && d.user_id == userId) =
        some (if d.id = documentId then
          { d with last_synced_at := some now1, title := g.title, updated_at := now1 }
        else d) := by
      rw [syncDocument_ok_docs userId documentId st g now1 d hfind]
      rw [find_map_pred_comm _ _ (fun x => by by_cases hx : x.id = documentId <;>
        simp [hx]) st.docs, hfind]
      rfl
    -- run-2 snapshot is the image of the run-1 snapshot
    have hL2 : (st.segs.map F).filter (fun s => s.document_id == documentId) =
        ((st.segs.filter (fun s => s.document_id == documentId)).map F) := by
      rw [List.filter_map]
      congr 1
      apply List.filter_congr
      intro x _
      simp [Function.comp, (hpres x).2.1]
    -- primary-key facts about the run-1 snapshot
    have hcoh : ∀ s ∈ st.segs.filter (fun s => s.document_id == documentId),
        ∀ r ∈ st.segs, r.id = s.id → r = s := by
      intro s hs r hr hid
      exact List.inj_on_of_nodup_map hnd hr (List.mem_of_mem_filter hs) hid
    have hndL1 : ((st.segs.filter (fun s => s.document_id == documentId)).map
        (fun s => s.id)).Nodup :=
      hnd.sublist (List.Sublist.map _ (List.filter_sublist st.segs))
    -- every run-2 snapshot row agrees with its range
    have hagree : ∀ s ∈ (st.segs.map F).filter (fun s => s.document_id == documentId),
        ∀ rg, g.namedRanges.lookup s.id = some rg → agreesWith g.fullText rg s := by
      rw [hL2]
      intro s hs rg hrg
      rcases List.mem_map.mp hs with ⟨s1, hs1, rfl⟩
      have hid1 : (F s1).id = s1.id := (hpres s1).1
      refine syncFold_establishes_agree g.fullText g.namedRanges now1
        (st.segs.filter (fun s => s.document_id == documentId)) initSyncResult st.segs
        hcoh hndL1 s1 hs1 rg (by rw [← hid1]; exact hrg) (F s1) ?_ hid1
      rw [hmap]
      exact List.mem_map.mpr ⟨s1, List.mem_of_mem_filter hs1, rfl⟩
    -- run-2 components
    have houtcome2 : (syncDocument userId documentId
        (syncDocument userId documentId st (.ok g) now1).2 (.ok g) now2).1 =
        Except.ok (((st.segs.map F).filter (fun s => s.document_id == documentId)).foldl
          (syncStep g.fullText g.namedRanges now2) (initSyncResult, st.segs.map F)).1 := by
      rw [syncDocument_ok_outcome userId documentId
        (syncDocument userId documentId st (.ok g) now1).2 g now2 _ hfind2, hsegs1]
    have hsegs2 : (syncDocument userId documentId
        (syncDocument userId documentId st (.ok g) now1).2 (.ok g) now2).2.segs =
        (((st.segs.map F).filter (fun s => s.document_id == documentId)).foldl
          (syncStep g.fullText g.namedRanges now2) (initSyncResult, st.segs.map F)).2 := by
      rw [syncDocument_ok_segs userId documentId
        (syncDocument userId documentId st (.ok g) now1).2 g now2 _ hfind2, hsegs1]
    rcases syncFold_noop g.fullText g.namedRanges now2
        ((st.segs.map F).filter (fun s => s.document_id == documentId)) initSyncResult
        (st.segs.map F) hagree with ⟨hnoop2, hupd2, hrep2, _⟩
    refine ⟨(((st.segs.map F).filter (fun s => s.document_id == documentId)).foldl
        (syncStep g.fullText g.namedRanges now2) (initSyncResult, st.segs.map F)).1,
      houtcome2, ?_, ?_, ?_, ?_⟩
    · rw [hupd2]
      rfl
    · rw [hrep2]
      rfl
    · rw [syncFold_orphans, hr1, syncFold_orphans, hL2, List.filterMap_map]
      congr 1
      apply List.filterMap_congr
      intro s1 hs1
      simp only [Function.comp_apply]
      cases hlk : g.namedRanges.lookup s1.id with
      | none =>
        rw [hnoneF s1 hlk]
      | some rg =>
        have hid1 : (F s1).id = s1.id := (hpres s1).1
        simp only [orphanEntry, hid1, hlk]
    · rw [hsegs2, hsegs1]
      exact hnoop2

/-- Witness for `syncDocument_idempotent_amended`: one segment whose
range moved, first sync updates it, second sync is a no-op. -/
theorem syncDocument_idempotent_amended_witness :
    ((([⟨7, 1, 0, 1, "x", "seg7", 0⟩] : List SegmentRow).map (fun s => s.id)).Nodup) ∧
    ((syncDocument 1 1 ⟨[⟨1, 1, "gf", "Doc", true, none, 0⟩],
        [⟨7, 1, 0, 1, "x", "seg7", 0⟩], []⟩
        (.ok ⟨"Doc", "hello world", [(7, ⟨0, 5⟩)]⟩) 5).1 =
      Except.ok ⟨.success, 1, 0, [], []⟩) ∧
    (∃ r2,
      (syncDocument 1 1
        (syncDocument 1 1 ⟨[⟨1, 1, "gf", "Doc", true, none, 0⟩],
          [⟨7, 1, 0, 1, "x", "seg7", 0⟩], []⟩
          (.ok ⟨"Doc", "hello world", [(7, ⟨0, 5⟩)]⟩) 5).2
        (.ok ⟨"Doc", "hello world", [(7, ⟨0, 5⟩)]⟩) 6).1 = Except.ok r2 ∧
      r2.updated_segments = 0 ∧
      r2.repositioned_segments = 0 ∧
      r2.orphaned_segments = (⟨.success, 1, 0, [], []⟩ : SyncResult).orphaned_segments ∧
      (syncDocument 1 1
        (syncDocument 1 1 ⟨[⟨1, 1, "gf", "Doc", true, none, 0⟩],
          [⟨7, 1, 0, 1, "x", "seg7", 0⟩], []⟩
          (.ok ⟨"Doc", "hello world", [(7, ⟨0, 5⟩)]⟩) 5).2
        (.ok ⟨"Doc", "hello world", [(7, ⟨0, 5⟩)]⟩) 6).2.segs =
      (syncDocument 1 1 ⟨[⟨1, 1, "gf", "Doc", true, none, 0⟩],
          [⟨7, 1, 0, 1, "x", "seg7", 0⟩], []⟩
          (.ok ⟨"Doc", "hello world", [(7, ⟨0, 5⟩)]⟩) 5).2.segs) :=
  ⟨by decide, rfl,
   syncDocument_idempotent_amended 1 1
     ⟨[⟨1, 1, "gf", "Doc", true, none, 0⟩], [⟨7, 1, 0, 1, "x", "seg7", 0⟩], []⟩
     ⟨"Doc", "hello world", [(7, ⟨0, 5⟩)]⟩ 5 6 (by decide)
     ⟨.success, 1, 0, [], []⟩ rfl⟩

/-! ## Segment creation with tags (src/unnamed/part_002, `createSegment`)

Every statement of `createSegment` runs through `db.query` on the pool —
no `BEGIN`/`COMMIT` wraps them, unlike `updateTags` in the same file —
so each INSERT commits on its own.  The segment INSERT fails when a
foreign key (document or category) is absent; the single multi-row
`segment_tags` INSERT fails atomically when a tag id is absent (foreign
key) or `tag_ids` repeats a pair (primary key).  The color used when
`dto.color` is absent is the `assignColor` result, passed in as
`assignedColor`; its value is irrelevant to the persistence order
studied here. -/

/-- A `segments` row as inserted by `createSegment`. -/
structure CSSegmentRow where
  id : Nat
  user_id : Nat
  document_id : Nat
  category_id : Nat
  start_offset : Int
  end_offset : Int
  text_content : String
  title : String
  color : String
  is_primary : Bool
  deriving Repr, DecidableEq

/-- The tables `createSegment` touches (`documents`, `categories` and
`tags` appear as the id sets backing the foreign keys). -/
structure CSState where
  documents : List Nat
  categories : List Nat
  tags : List Nat
  segments : List CSSegmentRow
  segment_tags : List (Nat × Nat)
  color_usage : List (Nat × String × Nat)
  nextId : Nat
  deriving Repr, DecidableEq

/-- `recordColorUsage` at row level: `INSERT ... ON CONFLICT (user_id,
color) DO UPDATE SET usage_count = usage_count + 1`. -/
def upsertColorUsage (rows : List (Nat × String × Nat)) (userId : Nat)
    (color : String) : List (Nat × String × Nat) :=
  if rows.any (fun r => r.1 = userId ∧ r.2.1 = color) then
    rows.map (fun r => if r.1 = userId ∧ r.2.1 = color then (r.1, r.2.1, r.2.2 + 1) else r)
  else rows ++ [(userId, color, 1)]

/-- Body of a `createSegment` call (validated by `createSegmentSchema`;
an absent `tag_ids` and `[]` behave identically). -/
structure CreateSegmentDTO where
  document_id : Nat
  category_id : Nat
  start_offset : Int
  end_offset : Int
  text_content : String
  title : Option String
  tag_ids : List Nat
  color : Option String
  deriving Repr, DecidableEq

/-- `createSegment` (part_002 lines 408-443): insert the segment
(autocommit), record color usage (autocommit), then insert the tag rows
(autocommit) — a failing tag INSERT leaves the earlier statements
committed. -/
def createSegment (userId : Nat) (dto : CreateSegmentDTO) (assignedColor : String)
    (st : CSState) : Except AppErr Nat × CSState :=
  let color := dto.color.getD assignedColor
  if dto.document_id ∈ st.documents ∧ dto.category_id ∈ st.categories then
    let segId := st.nextId
    let row : CSSegmentRow := ⟨segId, userId, dto.document_id, dto.category_id,
      dto.start_offset, dto.end_offset, dto.text_content,
      dto.title.getD (jsSubstring dto.text_content 0 50), color, true⟩
    let st1 := { st with segments := st.segments ++ [row], nextId := st.nextId + 1 }
    let st2 := { st1 with color_usage := upsertColorUsage st1.color_usage userId color }
    if dto.tag_ids ≠ [] then
      if (∀ t ∈ dto.tag_ids, t ∈ st.tags) ∧ dto.tag_ids.Nodup then
        (Except.ok segId,
         { st2 with segment_tags := st2.segment_tags ++
             dto.tag_ids.map (fun t => (segId, t)) })
      else
        (Except.error ⟨"insert into segment_tags violates a constraint", 500⟩, st2)
    else (Except.ok segId, st2)
  else
    (Except.error ⟨"insert into segments violates a foreign key constraint", 500⟩, st)

/-! ### C6: segment creation with tags is not transactional -/

/-- **C6 (counterexample).**  Creating a segment with a dangling tag id:
the tag INSERT fails, the call surfaces the error — but the freshly
inserted segment row (and the color-usage upsert) stay committed: the
state is *not* unchanged on error, no rollback happens. -/
theorem createSegment_tag_failure_keeps_segment :
    ((createSegment 1 ⟨1, 2, 0, 3, "hello", none, [99], some "#FFFFFF"⟩ "#E57373"
        ⟨[1], [2], [], [], [], [], 100⟩).1 =
      Except.error ⟨"insert into segment_tags violates a constraint", 500⟩) ∧
    ((createSegment 1 ⟨1, 2, 0, 3, "hello", none, [99], some "#FFFFFF"⟩ "#E57373"
        ⟨[1], [2], [], [], [], [], 100⟩).2.segments =
      [⟨100, 1, 1, 2, 0, 3, "hello", "hello", "#FFFFFF", true⟩]) ∧
    (([⟨100, 1, 1, 2, 0, 3, "hello", "hello", "#FFFFFF", true⟩] : List CSSegmentRow) ≠
      ([] : List CSSegmentRow)) := by
  refine ⟨rfl, rfl, by decide⟩

/-- **C6 (amended).**  Segment creation with a non-empty tag list is not
all-or-nothing: when the segment and color-usage INSERTs succeed but the
`segment_tags` INSERT fails, `createSegment` returns the error while the
new segment row remains persisted and no tag row is written (only the
tag replacement path `updateTags` is wrapped in a transaction). -/
theorem createSegment_not_atomic (userId : Nat) (dto : CreateSegmentDTO)
    (assignedColor : String) (st : CSState)
    (hfk : dto.document_id ∈ st.documents ∧ dto.category_id ∈ st.categories)
    (htags : dto.tag_ids ≠ [])
    (hfail : ¬((∀ t ∈ dto.tag_ids, t ∈ st.tags) ∧ dto.tag_ids.Nodup)) :
    (createSegment userId dto assignedColor st).1 =
      Except.error ⟨"insert into segment_tags violates a constraint", 500⟩ ∧
    (createSegment userId dto assignedColor st).2.segments =
      st.segments ++ [⟨st.nextId, userId, dto.document_id, dto.category_id,
        dto.start_offset, dto.end_offset, dto.text_content,
        dto.title.getD (jsSubstring dto.text_content 0 50),
        dto.color.getD assignedColor, true⟩] ∧
    (createSegment userId dto assignedColor st).2.segment_tags = st.segment_tags := by
  simp only [createSegment, if_pos hfk, if_pos htags, if_neg hfail]
  exact ⟨trivial, trivial, trivial⟩

/-- Witness for `createSegment_not_atomic` at the counterexample's
input. -/
theorem createSegment_not_atomic_witness :
    ((1 : Nat) ∈ [1] ∧ (2 : Nat) ∈ [2]) ∧
    (([99] : List Nat) ≠ []) ∧
    ¬((∀ t ∈ ([99] : List Nat), t ∈ ([] : List Nat)) ∧ ([99] : List Nat).Nodup) ∧
    ((createSegment 1 ⟨1, 2, 0, 3, "hello", none, [99], some "#FFFFFF"⟩ "#E57373"
        ⟨[1], [2], [], [], [], [], 100⟩).1 =
      Except.error ⟨"insert into segment_tags violates a constraint", 500⟩ ∧
    (createSegment 1 ⟨1, 2, 0, 3, "hello", none, [99], some "#FFFFFF"⟩ "#E57373"
        ⟨[1], [2], [], [], [], [], 100⟩).2.segments =
      [] ++ [⟨100, 1, 1, 2, 0, 3, "hello",
        (none : Option String).getD (jsSubstring "hello" 0 50), "#FFFFFF", true⟩] ∧
    (createSegment 1 ⟨1, 2, 0, 3, "hello", none, [99], some "#FFFFFF"⟩ "#E57373"
        ⟨[1], [2], [], [], [], [], 100⟩).2.segment_tags = []) :=
  ⟨⟨by decide, by decide⟩, by decide, by decide,
   createSegment_not_atomic 1 ⟨1, 2, 0, 3, "hello", none, [99], some "#FFFFFF"⟩ "#E57373"
     ⟨[1], [2], [], [], [], [], 100⟩ ⟨by decide, by decide⟩ (by decide) (by decide)⟩

/-! ## Whole-folder sync (sync.ts, `syncAllDocuments`)

The user's `watched_folder_id`, the Drive folder listing, the active
registered documents (`google_file_id → id`, unique per user by the
table constraint), and the outcomes of the per-document
`syncDocument` / `registerDocument` calls are the inputs.  The final
`logSync` and the per-document `is_active := false` UPDATEs of step 5
only touch tables this claim does not observe and are not carried in the
return value. -/

structure DriveFile where
  id : String
  name : String
  deriving Repr, DecidableEq

structure FullSyncResult where
  documents_synced : Nat
  documents_added : Nat
  documents_removed : Nat
  segments_updated : Nat
  errors : List (Nat × String)
  deriving Repr, DecidableEq

def initFullSyncResult : FullSyncResult := ⟨0, 0, 0, 0, []⟩

/-- One iteration of the file loop (sync.ts lines 158-182): a registered
file is synced (errors are appended, not thrown) and removed from the
map; an unregistered file is auto-registered (a registration error is
logged to the console and swallowed). -/
def syncAllStep (syncRes : Nat → Except AppErr SyncResult)
    (regRes : String → Except AppErr Unit)
    (acc : FullSyncResult × List (String × Nat)) (file : DriveFile) :
    FullSyncResult × List (String × Nat) :=
  match acc.2.lookup file.id with
  | some docId =>
    (match syncRes docId with
     | .ok r =>
       { acc.1 with
          documents_synced := acc.1.documents_synced + 1,
          segments_updated := acc.1.segments_updated + r.updated_segments }
     | .error e => { acc.1 with errors := acc.1.errors ++ [(docId, e.message)] },
     acc.2.eraseP (fun p => p.1 == file.id))
  | none =>
    (match regRes file.id with
     | .ok _ => { acc.1 with documents_added := acc.1.documents_added + 1 }
     | .error _ => acc.1,
     acc.2)

/-- `syncAllDocuments` (sync.ts lines 118-197): throws only for a
missing watched-folder configuration or a failed folder listing;
otherwise runs the loop and reports the documents remaining in the map
as removed. -/
def syncAllDocuments (watchedFolder : Option String)
    (listing : Except AppErr (List DriveFile))
    (dbDocs : List (String × Nat))
    (syncRes : Nat → Except AppErr SyncResult)
    (regRes : String → Except AppErr Unit) : Except AppErr FullSyncResult :=
  match watchedFolder with
  | none => Except.error ⟨"No watched folder configured", 400⟩
  | some _ =>
    match listing with
    | .error e => Except.error e
    | .ok files =>
      let looped := files.foldl (syncAllStep syncRes regRes) (initFullSyncResult, dbDocs)
      Except.ok { looped.1 with documents_removed := looped.2.length }

/-- Deleting one key from the map leaves lookups of other keys
unchanged. -/
theorem lookup_eraseP_ne (k k' : String) (hne : k' ≠ k) :
    ∀ (m : List (String × Nat)),
    (m.eraseP (fun p => p.1 == k)).lookup k' = m.lookup k' := by
  intro m
  induction m with
  | nil => rfl
  | cons p m ih =>
    cases p with
    | mk a b =>
      by_cases hp : a = k
      · rw [List.eraseP_cons_of_pos (by simp [hp])]
        have hka : (k' == a) = false := by
          simp only [beq_eq_false_iff_ne, ne_eq]
          intro h
          exact hne (hp ▸ h)
        simp [List.lookup, hka]
      · rw [List.eraseP_cons_of_neg (by simp [hp])]
        cases hka : k' == a with
        | true => simp [List.lookup, hka]
        | false => simpa [List.lookup, hka] using ih

/-- The error list produced by the file loop: one entry per listed file
that is registered and whose individual sync throws. -/
theorem syncAllLoop_errors (syncRes : Nat → Except AppErr SyncResult)
    (regRes : String → Except AppErr Unit) (dbDocs : List (String × Nat)) :
    ∀ (files : List DriveFile) (acc : FullSyncResult) (m : List (String × Nat)),
      ((files.map (fun fl => fl.id)).Nodup) →
      (∀ fl ∈ files, m.lookup fl.id = dbDocs.lookup fl.id) →
      (files.foldl (syncAllStep syncRes regRes) (acc, m)).1.errors =
        acc.errors ++ files.filterMap (fun fl =>
          match dbDocs.lookup fl.id with
          | some docId =>
            match syncRes docId with
            | .ok _ => none
            | .error e => some (docId, e.message)
          | none => none) := by
  intro files
  induction files with
  | nil =>
    intro acc m _ _
    simp
  | cons fl files ih =>
    intro acc m hnd hm
    have hnd' : ((files.map (fun fl => fl.id)).Nodup) ∧ fl.id ∉ files.map (fun fl => fl.id) := by
      have h := List.nodup_cons.mp (by rw [← List.map_cons]; exact hnd)
      exact ⟨h.2, h.1⟩
    have hml : m.lookup fl.id = dbDocs.lookup fl.id := hm fl (List.mem_cons_self fl files)
    rw [List.foldl_cons]
    cases hdb : dbDocs.lookup fl.id with
    | some docId =>
      have hm' : ∀ fl' ∈ files, (m.eraseP (fun p => p.1 == fl.id)).lookup fl'.id =
          dbDocs.lookup fl'.id := by
        intro fl' hfl'
        rw [lookup_eraseP_ne fl.id fl'.id (fun h => hnd'.2 (by
          rw [← h]
          exact List.mem_map.mpr ⟨fl', hfl', rfl⟩))]
        exact hm fl' (List.mem_cons_of_mem fl hfl')
      cases hsy : syncRes docId with
      | ok r =>
        rw [show syncAllStep syncRes regRes (acc, m) fl =
            ({ acc with
                documents_synced := acc.documents_synced + 1,
                segments_updated := acc.segments_updated + r.updated_segments },
             m.eraseP (fun p => p.1 == fl.id)) by
          simp only [syncAllStep, hml, hdb, hsy]]
        rw [ih _ _ hnd'.1 hm']
        simp [hdb, hsy]
      | error e =>
        rw [show syncAllStep syncRes regRes (acc, m) fl =
            ({ acc with errors := acc.errors ++ [(docId, e.message)] },
             m.eraseP (fun p => p.1 == fl.id)) by
          simp only [syncAllStep, hml, hdb, hsy]]
        rw [ih _ _ hnd'.1 hm']
        simp [hdb, hsy]
    | none =>
      have hm' : ∀ fl' ∈ files, m.lookup fl'.id = dbDocs.lookup fl'.id :=
        fun fl' hfl' => hm fl' (List.mem_cons_of_mem fl hfl')
      cases hrg : regRes fl.id with
      | ok u =>
        rw [show syncAllStep syncRes regRes (acc, m) fl =
            ({ acc with documents_added := acc.documents_added + 1 }, m) by
          simp only [syncAllStep, hml, hdb, hrg]]
        rw [ih _ _ hnd'.1 hm']
        simp [hdb]
      | error e =>
        rw [show syncAllStep syncRes regRes (acc, m) fl = (acc, m) by
          simp only [syncAllStep, hml, hdb, hrg]]
        rw [ih _ _ hnd'.1 hm']
        simp [hdb]

/-- **C9.**  `syncAllDocuments` raises an error exactly when no watched
folder is configured or the folder listing itself fails; otherwise it
returns one aggregate result whose error list has exactly one entry per
listed registered document whose individual reconciliation threw — each
such failure is recorded and the remaining files keep being processed
(registration failures of new files are swallowed).  The distinct-key
hypotheses reflect the Drive listing and the `UNIQUE(user_id,
google_file_id)` constraint. -/
theorem syncAllDocuments_failure_semantics (watchedFolder : Option String)
    (listing : Except AppErr (List DriveFile)) (dbDocs : List (String × Nat))
    (syncRes : Nat → Except AppErr SyncResult)
    (regRes : String → Except AppErr Unit) :
    (watchedFolder = none →
      syncAllDocuments watchedFolder listing dbDocs syncRes regRes =
        Except.error ⟨"No watched folder configured", 400⟩) ∧
    (∀ f e, watchedFolder = some f → listing = .error e →
      syncAllDocuments watchedFolder listing dbDocs syncRes regRes = Except.error e) ∧
    (∀ f files, watchedFolder = some f → listing = .ok files →
      ((files.map (fun fl => fl.id)).Nodup) →
      ∃ r, syncAllDocuments watchedFolder listing dbDocs syncRes regRes = Except.ok r ∧
        r.errors = files.filterMap (fun fl =>
          match dbDocs.lookup fl.id with
          | some docId =>
            match syncRes docId with
            | .ok _ => none
            | .error e => some (docId, e.message)
          | none => none)) := by
  refine ⟨fun h => by rw [h]; rfl, fun f e hf he => by rw [hf, he]; rfl, ?_⟩
  intro f files hf hl hnd
  rw [hf, hl]
  refine ⟨_, rfl, ?_⟩
  have h := syncAllLoop_errors syncRes regRes dbDocs files initFullSyncResult dbDocs hnd
    (fun _ _ => rfl)
  simpa using h

/-- Witness for `syncAllDocuments_failure_semantics`: two listed files,
one registered document whose sync fails, one new file. -/
theorem syncAllDocuments_failure_semantics_witness :
    ((([⟨"gfA", "A"⟩, ⟨"gfB", "B"⟩] : List DriveFile).map (fun fl => fl.id)).Nodup) ∧
    (∃ r, syncAllDocuments (some "folder") (.ok [⟨"gfA", "A"⟩, ⟨"gfB", "B"⟩]) [("gfA", 3)]
        (fun _ => Except.error ⟨"boom", 500⟩) (fun _ => Except.ok ()) = Except.ok r ∧
      r.errors = ([⟨"gfA", "A"⟩, ⟨"gfB", "B"⟩] : List DriveFile).filterMap (fun fl =>
        match ([("gfA", 3)] : List (String × Nat)).lookup fl.id with
        | some docId =>
          match (fun _ => Except.error ⟨"boom", 500⟩ :
              Nat → Except AppErr SyncResult) docId with
          | .ok _ => none
          | .error e => some (docId, e.message)
        | none => none)) :=
  ⟨by decide,
   (syncAllDocuments_failure_semantics (some "folder")
      (.ok [⟨"gfA", "A"⟩, ⟨"gfB", "B"⟩]) [("gfA", 3)]
      (fun _ => Except.error ⟨"boom", 500⟩) (fun _ => Except.ok ())).2.2
     "folder" [⟨"gfA", "A"⟩, ⟨"gfB", "B"⟩] rfl rfl (by decide)⟩

/-! ## Document registration (src/backend/src/services/documents.ts,
`registerDocument`)

Drive calls (`getFileMetadata`, `copyFileToFolder`,
`updateFileProperties`) are oracles; each is awaited, so a rejection
propagates from the point of the call.  `modifiedTime` is not relevant
to the claims and is omitted from the metadata. -/

/-- A `documents` row (the columns `registerDocument` touches). -/
structure RDocRow where
  id : Nat
  user_id : Nat
  google_file_id : String
  title : String
  google_folder_id : Option String
  mime_type : String
  is_active : Bool
  deriving Repr, DecidableEq

/-- Drive file metadata (`fields: id, name, parents, mimeType, ...`). -/
structure FileMeta where
  name : String
  parents : List String
  mimeType : String
  deriving Repr, DecidableEq

/-- Body of `POST /documents` (`createDocumentSchema`). -/
structure RegisterDTO where
  google_file_id : String
  copy_to_folder : Bool
  deriving Repr, DecidableEq

/-- `registerDocument` (documents.ts lines 85-152): an existing
`(user, google_file_id)` row short-circuits (reactivating it when
soft-deleted) and is returned as-is; otherwise the optional copy step
runs, metadata is fetched, the row is inserted, and the Drive app
properties are updated (a failure there propagates *after* the insert
committed). -/
def registerDocument (userId : Nat) (watchedFolder : Option String) (dto : RegisterDTO)
    (docs : List RDocRow) (nextId : Nat)
    (metaOf : String → Except AppErr FileMeta)
    (copyRes : Except AppErr String)
    (propsRes : Except AppErr Unit) : Except AppErr RDocRow × List RDocRow :=
  match docs.find? (fun d => d.user_id == userId && d.google_file_id == dto.google_file_id) with
  | some row =>
    if row.is_active then (Except.ok row, docs)
    else
      (Except.ok row,
       docs.map (fun r => if r.id = row.id then { r with is_active := true } else r))
  | none =>
    let fileIdStep : Except AppErr String :=
      if dto.copy_to_folder then
        match watchedFolder with
        | none => Except.error ⟨"User has no watched folder configured", 400⟩
        | some _ =>
          match metaOf dto.google_file_id with
          | .error e => Except.error e
          | .ok _ => copyRes
      else Except.ok dto.google_file_id
    match fileIdStep with
    | .error e => (Except.error e, docs)
    | .ok fileId =>
      match metaOf fileId with
      | .error e => (Except.error e, docs)
      | .ok meta =>
        let newDoc : RDocRow := ⟨nextId, userId, fileId, meta.name,
          meta.parents.head?, meta.mimeType, true⟩
        match propsRes with
        | .error e => (Except.error e, docs ++ [newDoc])
        | .ok _ => (Except.ok newDoc, docs ++ [newDoc])

/-- **C10.**  `registerDocument` is idempotent per `(user,
google_file_id)`: when a matching row exists, no row is inserted (the
table keeps its size), the matching row itself is returned, and the only
change is reactivating it when it was soft-deleted (none at all when it
was active); only when no such row exists — here with
`copy_to_folder = false` and the Drive calls succeeding — is a fresh
row appended. -/
theorem registerDocument_idempotent (userId : Nat) (watchedFolder : Option String)
    (dto : RegisterDTO) (docs : List RDocRow) (nextId : Nat)
    (metaOf : String → Except AppErr FileMeta)
    (copyRes : Except AppErr String) (propsRes : Except AppErr Unit) :
    (∀ row, docs.find? (fun d => d.user_id == userId &&
        d.google_file_id == dto.google_file_id) = some row →
      (registerDocument userId watchedFolder dto docs nextId metaOf copyRes propsRes).1 =
        Except.ok row ∧
      (registerDocument userId watchedFolder dto docs nextId metaOf copyRes
        propsRes).2.length = docs.length ∧
      (registerDocument userId watchedFolder dto docs nextId metaOf copyRes propsRes).2 =
        (if row.is_active then docs
         else docs.map (fun r => if r.id = row.id then { r with is_active := true } else r))) ∧
    (docs.find? (fun d => d.user_id == userId &&
        d.google_file_id == dto.google_file_id) = none →
      dto.copy_to_folder = false →
      ∀ meta, metaOf dto.google_file_id = .ok meta → propsRes = .ok () →
      registerDocument userId watchedFolder dto docs nextId metaOf copyRes propsRes =
        (Except.ok ⟨nextId, userId, dto.google_file_id, meta.name,
           meta.parents.head?, meta.mimeType, true⟩,
         docs ++ [⟨nextId, userId, dto.google_file_id, meta.name,
           meta.parents.head?, meta.mimeType, true⟩])) := by
  constructor
  · intro row hfind
    by_cases hact : row.is_active
    · rw [show registerDocument userId watchedFolder dto docs nextId metaOf copyRes
          propsRes = (Except.ok row, docs) by
        simp only [registerDocument, hfind, if_pos hact]]
      simp [hact]
    · rw [show registerDocument userId watchedFolder dto docs nextId metaOf copyRes
          propsRes = (Except.ok row,
            docs.map (fun r => if r.id = row.id then { r with is_active := true } else r)) by
        simp only [registerDocument, hfind, if_neg hact]]
      simp [hact]
  · intro hfind hcopy meta hmeta hprops
    simp [registerDocument, hfind, hcopy, hmeta, hprops]

/-- Witness for `registerDocument_idempotent`: a soft-deleted existing
row is returned and reactivated without inserting. -/
theorem registerDocument_idempotent_witness :
    (([⟨5, 1, "gf", "T", none, "doc", false⟩] : List RDocRow).find?
        (fun d => d.user_id == 1 && d.google_file_id == "gf") =
      some ⟨5, 1, "gf", "T", none, "doc", false⟩) ∧
    ((registerDocument 1 none ⟨"gf", false⟩ [⟨5, 1, "gf", "T", none, "doc", false⟩] 9
        (fun _ => Except.ok ⟨"T2", ["p"], "doc"⟩) (Except.ok "gf") (Except.ok ())).1 =
      Except.ok ⟨5, 1, "gf", "T", none, "doc", false⟩ ∧
     (registerDocument 1 none ⟨"gf", false⟩ [⟨5, 1, "gf", "T", none, "doc", false⟩] 9
        (fun _ => Except.ok ⟨"T2", ["p"], "doc"⟩) (Except.ok "gf") (Except.ok ())).2.length =
       ([⟨5, 1, "gf", "T", none, "doc", false⟩] : List RDocRow).length ∧
     (registerDocument 1 none ⟨"gf", false⟩ [⟨5, 1, "gf", "T", none, "doc", false⟩] 9
        (fun _ => Except.ok ⟨"T2", ["p"], "doc"⟩) (Except.ok "gf") (Except.ok ())).2 =
       (if (⟨5, 1, "gf", "T", none, "doc", false⟩ : RDocRow).is_active then
          ([⟨5, 1, "gf", "T", none, "doc", false⟩] : List RDocRow)
        else ([⟨5, 1, "gf", "T", none, "doc", false⟩] : List RDocRow).map
          (fun r => if r.id = (⟨5, 1, "gf", "T", none, "doc", false⟩ : RDocRow).id then
            { r with is_active := true } else r))) :=
  ⟨by decide,
   (registerDocument_idempotent 1 none ⟨"gf", false⟩
      [⟨5, 1, "gf", "T", none, "doc", false⟩] 9
      (fun _ => Except.ok ⟨"T2", ["p"], "doc"⟩) (Except.ok "gf") (Except.ok ())).1
     ⟨5, 1, "gf", "T", none, "doc", false⟩ (by decide)⟩
